import Mathlib

/-
Verification of the py_event library (SetBased/py-event): a shallow
embedding of `py_event/Event.py` and `py_event/EventDispatcher.py`.

Modelling conventions:
- Python object identity is modelled by `Nat`: listener owners (the
  `__self__` of a bound method), underlying functions (`__func__`) and
  `Event` objects are all identified by naturals.  The three built-in
  events of the dispatcher get the fixed identities `loopStartId = 0`,
  `loopEndId = 1`, `queueEmptyId = 2`; user events are any other ids.
- `weakref.ref(x)` keyed dictionaries are modelled by association lists
  keyed by the owner identity (two refs to the same live object compare
  equal in Python, so the key is the owner's identity).  Python dicts
  preserve insertion order, which the association list mirrors.
- Listener callbacks are modelled by an environment `Env` mapping the
  function identity and call arguments to the list of API `Action`s the
  callback performs (trigger / register / unregister / raise).  Whether
  an owner's weak reference is still live is `Env.live`.
- Python `for` iteration over a live list is index-based over the current
  list contents (mutations are observed); iteration over a dict whose
  size changes raises `RuntimeError`, modelled by `Err.dictChanged` in
  the state.  Loops carry explicit fuel; exhausted fuel is `Err.fuelOut`.
- A ghost `trace` field records each `__dispatch_event` call and each
  listener invocation, so ordering claims can be stated over it.
-/

namespace PyEvent

/-- Payload datum carried by events and listeners; `none` models Python `None`. -/
abbrev Data := Option Nat

/-- A Python callable as passed to `register_listener` / `unregister_method`:
`func` is the underlying function (`__func__`); `selfObj` is the object the
method is bound to (`__self__`), `none` when the callable is not a bound
method (no `__self__` attribute). -/
structure Method where
  func : Nat
  selfObj : Option Nat
deriving DecidableEq, Repr

/-- The listener table of one `Event`: Python's insertion-ordered
`Dict[ReferenceType, List[Tuple[callable, Any]]]` from `Event.__listeners`,
as an association list from owner identity to that owner's ordered
`(function, listener_data)` entries. -/
abbrev Table := List (Nat × List (Nat × Data))

/-- Lookup of an owner's entry list in a table (empty when the key is absent). -/
def lookupOwner : Table → Nat → List (Nat × Data)
  | [], _ => []
  | (o, es) :: rest, owner => if o = owner then es else lookupOwner rest owner

/-- Append one `(function, listener_data)` entry under `owner`, creating the
owner's key at the end of the dict when absent: the body of
`Event.register_listener` after the bound-method check. -/
def appendEntry : Table → Nat → Nat × Data → Table
  | [], owner, e => [(owner, [e])]
  | (o, es) :: rest, owner, e =>
    if o = owner then (o, es ++ [e]) :: rest
    else (o, es) :: appendEntry rest owner e

/-- Model of `Event.register_listener`: raises
`ValueError('Only an object can be a listener')` (the spec's
`InvalidListenerError`) when the callable has no `__self__`; otherwise
appends the entry under the owner's key. -/
def registerListener (t : Table) (m : Method) (d : Data) : Except String Table :=
  match m.selfObj with
  | none => Except.error "Only an object can be a listener"
  | some owner => Except.ok (appendEntry t owner (m.func, d))

/-- Model of the inner part of `Event.unregister_method` once the owner's key
was found: delete (by descending index) every entry whose function equals
`f`, then delete the owner's key when its list became empty. -/
def removeFuncFromOwner : Table → Nat → Nat → Table
  | [], _, _ => []
  | (o, es) :: rest, owner, f =>
    if o = owner then
      let es2 := es.filter (fun p => p.1 ≠ f)
      if es2.isEmpty then rest else (o, es2) :: rest
    else (o, es) :: removeFuncFromOwner rest owner f

/-- Model of `Event.unregister_method`: a no-op when the callable is not a
bound method or when the owner's key is absent. -/
def unregisterMethod (t : Table) (m : Method) : Table :=
  match m.selfObj with
  | none => t
  | some owner => removeFuncFromOwner t owner m.func

/-- Model of `Event.unregister_object`: delete the owner's key when present,
otherwise a no-op. -/
def unregisterObject (t : Table) (owner : Nat) : Table :=
  t.filter (fun p => p.1 ≠ owner)

/-- Identity of the dispatcher's built-in `__event_loop_start` event. -/
def loopStartId : Nat := 0

/-- Identity of the dispatcher's built-in `__event_loop_end` event. -/
def loopEndId : Nat := 1

/-- Identity of the dispatcher's built-in `__event_queue_empty` event. -/
def queueEmptyId : Nat := 2

/-- Runtime failures of the embedded interpreter: `dictChanged` is Python's
`RuntimeError: dictionary changed size during iteration` (raised by the
outer loop of `__dispatch_event` and not caught anywhere, so it aborts
`loop()`); `fuelOut` marks an execution cut short by exhausted fuel. -/
inductive Err where
  | dictChanged
  | fuelOut
deriving DecidableEq, Repr

/-- Ghost trace items: `dispatch e ed ex` marks a `__dispatch_event(e, ed)`
call made while the `exit` flag was `ex`; `invoke` records one listener
invocation `function(owner, event, event_data, listener_data)` together with
whether it raised; `exitSet` marks the `self.exit = True` assignment in the
drain loop. -/
inductive TItem where
  | dispatch (e : Nat) (ed : Data) (ex : Bool)
  | invoke (owner f e : Nat) (ed ld : Data) (raised : Bool)
  | exitSet
deriving DecidableEq, Repr

/-- State of the `EventDispatcher` together with the listener tables of all
events: `tables e` is event `e`'s `__listeners` dict, `queue` is
`EventDispatcher.__queue`, `exitFlag` the public `exit` attribute, `trace`
the ghost trace and `error` an uncaught runtime failure. -/
structure DState where
  tables : Nat → Table
  queue : List (Nat × Data)
  exitFlag : Bool
  trace : List TItem
  error : Option Err

/-- API calls a listener callback may perform during its invocation:
trigger an event, register / unregister listeners, or raise an exception. -/
inductive Action where
  | trigger (e : Nat) (ed : Data)
  | register (e : Nat) (m : Method) (ld : Data)
  | unregMethod (e : Nat) (m : Method)
  | unregObject (e : Nat) (owner : Nat)
  | raiseExc
deriving DecidableEq, Repr

/-- Listener environment: `prog f owner e ed ld` is the list of actions the
function `f` performs when invoked as `f(owner, e, ed, ld)`; `live owner`
tells whether the owner's weak reference still resolves. -/
structure Env where
  prog : Nat → Nat → Nat → Data → Data → List Action
  live : Nat → Bool

/-- Replace the listener table of event `e`. -/
def setTable (s : DState) (e : Nat) (t : Table) : DState :=
  { s with tables := Function.update s.tables e t }

/-- Model of `EventDispatcher.internal_queue_event` (reached from
`Event.trigger`): append the `(event, event_data)` pair at the queue's tail. -/
def internalQueueEvent (s : DState) (e : Nat) (ed : Data) : DState :=
  { s with queue := s.queue ++ [(e, ed)] }

/-- Record an uncaught runtime failure (keeping the first one). -/
def setError (s : DState) (err : Err) : DState :=
  if s.error.isSome then s else { s with error := some err }

/-- Run the actions of one listener invocation in order; the returned `Bool`
tells whether the invocation raised (either an explicit raise or the
`ValueError` of a failed `register_listener`), which truncates the
remaining actions. -/
def runActions : DState → List Action → DState × Bool
  | s, [] => (s, false)
  | s, Action.raiseExc :: _ => (s, true)
  | s, Action.trigger e ed :: rest => runActions (internalQueueEvent s e ed) rest
  | s, Action.register e m ld :: rest =>
    match registerListener (s.tables e) m ld with
    | Except.error _ => (s, true)
    | Except.ok t => runActions (setTable s e t) rest
  | s, Action.unregMethod e m :: rest =>
    runActions (setTable s e (unregisterMethod (s.tables e) m)) rest
  | s, Action.unregObject e o :: rest =>
    runActions (setTable s e (unregisterObject (s.tables e) o)) rest

/-- One iteration body of `__dispatch_event`'s inner loop: invoke
`function(listener_object, event, event_data, listener_data)` inside
`try/except`, which catches anything the listener raises. -/
def invokeListener (env : Env) (owner f e : Nat) (ed ld : Data) (s : DState) : DState :=
  match runActions s (env.prog f owner e ed ld) with
  | (s2, raised) => { s2 with trace := s2.trace ++ [TItem.invoke owner f e ed ld raised] }

/-- Inner loop `for function, listener_data in listeners[listener_ref]` of
`__dispatch_event`: a Python list iterator is index-based over the live
list, so mutations made by an invoked listener to the same owner's entry
list are observed by the ongoing iteration. -/
def innerLoop (env : Env) (e : Nat) (ed : Data) (owner : Nat) : Nat → Nat → DState → DState
  | _, 0, s => if s.error.isSome then s else setError s Err.fuelOut
  | j, fuel + 1, s =>
    if s.error.isSome then s
    else
      let es := lookupOwner (s.tables e) owner
      if h : j < es.length then
        innerLoop env e ed owner (j + 1) fuel
          (invokeListener env owner (es.get ⟨j, h⟩).1 e ed (es.get ⟨j, h⟩).2 s)
      else s

/-- Outer loop `for listener_ref in listeners` of `__dispatch_event`: a dict
iterator over the live dict, raising `RuntimeError` as soon as the number
of keys differs from the count at iteration start (`n0`); a dead owner
(`listener_ref()` falsy) is skipped. -/
def outerLoop (env : Env) (e : Nat) (ed : Data) (n0 : Nat) : Nat → Nat → DState → DState
  | _, 0, s => if s.error.isSome then s else setError s Err.fuelOut
  | i, fuel + 1, s =>
    if s.error.isSome then s
    else
      let t := s.tables e
      if t.length ≠ n0 then setError s Err.dictChanged
      else if h : i < t.length then
        if env.live (t.get ⟨i, h⟩).1 then
          outerLoop env e ed n0 (i + 1) fuel
            (innerLoop env e ed (t.get ⟨i, h⟩).1 0 fuel s)
        else outerLoop env e ed n0 (i + 1) fuel s
      else s

/-- Model of `EventDispatcher.__dispatch_event`: iterate the event's live
listener table (`listeners = event.internal_get_listeners()` returns the
dict itself, not a copy) and invoke every entry of every live owner.  The
ghost `TItem.dispatch` item marks the call. -/
def dispatchEvent (env : Env) (fuel : Nat) (e : Nat) (ed : Data) (s : DState) : DState :=
  if s.error.isSome then s
  else
    let s1 : DState := { s with trace := s.trace ++ [TItem.dispatch e ed s.exitFlag] }
    outerLoop env e ed (s1.tables e).length 0 fuel s1

/-- Lines 264-267 of `EventDispatcher.loop`: after dispatching a popped
event, when the queue is empty and `exit` is false, dispatch `queue_empty`;
when the queue is still empty immediately afterwards, set `exit = True`
(marked by the ghost `TItem.exitSet`). -/
def drainCheck (env : Env) (fuel : Nat) (s : DState) : DState :=
  if s.error.isSome then s
  else if s.queue.isEmpty && !s.exitFlag then
    let s2 := dispatchEvent env fuel queueEmptyId none s
    if s2.error.isSome then s2
    else if s2.queue.isEmpty then
      { s2 with exitFlag := true, trace := s2.trace ++ [TItem.exitSet] }
    else s2
  else s

/-- The `while self.__queue:` drain loop of `EventDispatcher.loop`: pop the
front entry, dispatch it, then run the queue-empty check. -/
def drainLoop (env : Env) : Nat → DState → DState
  | 0, s => if s.error.isSome then s else if s.queue.isEmpty then s else setError s Err.fuelOut
  | fuel + 1, s =>
    if s.error.isSome then s
    else
      match s.queue with
      | [] => s
      | (e, ed) :: rest =>
        let s1 := dispatchEvent env (fuel + 1) e ed { s with queue := rest }
        drainLoop env fuel (drainCheck env (fuel + 1) s1)

/-- Model of `EventDispatcher.loop`: dispatch `loop_start`; when `exit` is
false and the queue is empty, dispatch `queue_empty`; drain the queue;
finally dispatch `loop_end`.  An uncaught error in any stage propagates
(every later stage is the identity on an errored state), matching the
Python exception aborting `loop()`. -/
def loopRun (env : Env) (fuel : Nat) (s : DState) : DState :=
  let s1 := dispatchEvent env fuel loopStartId none s
  let s2 :=
    if !s1.exitFlag && s1.queue.isEmpty then dispatchEvent env fuel queueEmptyId none s1
    else s1
  let s3 := drainLoop env fuel s2
  dispatchEvent env fuel loopEndId none s3

/-- Well-formedness of a listener table: an owner appears at most once as a
key, and every present key carries at least one entry. -/
def WF (t : Table) : Prop :=
  (t.map Prod.fst).Nodup ∧ ∀ p ∈ t, p.2 ≠ []

instance : DecidablePred WF := by
  intro t
  unfold WF
  infer_instance

/-- Well-formedness through the `Except` result of `registerListener`. -/
def wfExcept : Except String Table → Prop
  | Except.ok t => WF t
  | Except.error _ => True

instance : DecidablePred wfExcept := by
  intro r
  cases r with
  | error e => exact isTrue trivial
  | ok t => change Decidable (WF t); infer_instance

theorem WF_tail {p : Nat × List (Nat × Data)} {rest : Table} (h : WF (p :: rest)) : WF rest := by
  obtain ⟨h1, h2⟩ := h
  refine ⟨(List.nodup_cons.mp h1).2, ?_⟩
  intro q hq
  exact h2 q (List.mem_cons_of_mem p hq)

theorem lookupOwner_eq_nil_of_not_mem {t : Table} {o : Nat}
    (h : o ∉ t.map Prod.fst) : lookupOwner t o = [] := by
  induction t with
  | nil => rfl
  | cons p rest ih =>
    obtain ⟨a, es⟩ := p
    simp only [List.map_cons, List.mem_cons] at h
    push_neg at h
    simp only [lookupOwner, if_neg (Ne.symm h.1)]
    exact ih h.2

theorem appendEntry_map_fst (t : Table) (o : Nat) (e : Nat × Data) :
    (appendEntry t o e).map Prod.fst =
      if o ∈ t.map Prod.fst then t.map Prod.fst else t.map Prod.fst ++ [o] := by
  induction t with
  | nil => simp [appendEntry]
  | cons p rest ih =>
    obtain ⟨a, es⟩ := p
    by_cases h : a = o
    · subst h
      simp [appendEntry]
    · by_cases h2 : o ∈ rest.map Prod.fst
      · simp [appendEntry, h, h2, ih, Ne.symm h]
      · simp [appendEntry, h, h2, ih, Ne.symm h]

theorem appendEntry_lookup_self (t : Table) (o : Nat) (e : Nat × Data) :
    lookupOwner (appendEntry t o e) o = lookupOwner t o ++ [e] := by
  induction t with
  | nil => simp [appendEntry, lookupOwner]
  | cons p rest ih =>
    obtain ⟨a, es⟩ := p
    by_cases h : a = o
    · subst h
      simp [appendEntry, lookupOwner]
    · simp [appendEntry, lookupOwner, h, ih]

theorem appendEntry_lookup_other (t : Table) (o : Nat) (e : Nat × Data) {o2 : Nat}
    (h : o2 ≠ o) : lookupOwner (appendEntry t o e) o2 = lookupOwner t o2 := by
  induction t with
  | nil => simp [appendEntry, lookupOwner, Ne.symm h]
  | cons p rest ih =>
    obtain ⟨a, es⟩ := p
    by_cases ha : a = o
    · subst ha
      simp [appendEntry, lookupOwner, Ne.symm h]
    · by_cases hb : a = o2
      · subst hb
        simp [appendEntry, lookupOwner, ha]
      · simp [appendEntry, lookupOwner, ha, hb, ih]

theorem appendEntry_of_not_mem {t : Table} {o : Nat} (e : Nat × Data)
    (h : o ∉ t.map Prod.fst) : appendEntry t o e = t ++ [(o, [e])] := by
  induction t with
  | nil => rfl
  | cons p rest ih =>
    obtain ⟨a, es⟩ := p
    simp only [List.map_cons, List.mem_cons] at h
    push_neg at h
    simp [appendEntry, Ne.symm h.1, ih h.2]

theorem appendEntry_entries_nonempty {t : Table} {o : Nat} {e : Nat × Data}
    (h2 : ∀ p ∈ t, p.2 ≠ []) : ∀ p ∈ appendEntry t o e, p.2 ≠ [] := by
  induction t with
  | nil =>
    intro p hp
    simp only [appendEntry, List.mem_singleton] at hp
    subst hp
    simp
  | cons q rest ih =>
    obtain ⟨a, es⟩ := q
    intro p hp
    by_cases ha : a = o
    · subst ha
      simp only [appendEntry, if_true, eq_self_iff_true, List.mem_cons] at hp
      rcases hp with hp | hp
      · subst hp
        simp
      · exact h2 p (List.mem_cons_of_mem _ hp)
    · simp only [appendEntry, if_neg ha, List.mem_cons] at hp
      rcases hp with hp | hp
      · subst hp
        exact h2 (a, es) (List.mem_cons_self _ _)
      · exact ih (fun q hq => h2 q (List.mem_cons_of_mem _ hq)) p hp

theorem appendEntry_WF {t : Table} (o : Nat) (e : Nat × Data) (h : WF t) :
    WF (appendEntry t o e) := by
  obtain ⟨h1, h2⟩ := h
  constructor
  · rw [appendEntry_map_fst]
    by_cases hm : o ∈ t.map Prod.fst
    · simpa [hm] using h1
    · simp only [hm, if_false]
      exact List.Nodup.append h1 (List.nodup_singleton o) (by simpa using hm)
  · exact appendEntry_entries_nonempty h2

theorem removeFuncFromOwner_map_fst_sublist (t : Table) (o f : Nat) :
    List.Sublist ((removeFuncFromOwner t o f).map Prod.fst) (t.map Prod.fst) := by
  induction t with
  | nil => simp [removeFuncFromOwner]
  | cons p rest ih =>
    obtain ⟨a, es⟩ := p
    by_cases h : a = o
    · subst h
      simp only [removeFuncFromOwner, if_pos rfl]
      by_cases h2 : (es.filter (fun p => p.1 ≠ f)).isEmpty = true
      · simp only [h2, if_true, List.map_cons]
        exact List.sublist_cons_self _ _
      · simp only [h2, if_false, List.map_cons]
        exact List.Sublist.cons₂ _ (List.Sublist.refl _)
    · simp only [removeFuncFromOwner, if_neg h, List.map_cons]
      exact List.Sublist.cons₂ _ ih

theorem removeFuncFromOwner_entries_nonempty {t : Table} {o f : Nat}
    (h2 : ∀ p ∈ t, p.2 ≠ []) : ∀ p ∈ removeFuncFromOwner t o f, p.2 ≠ [] := by
  induction t with
  | nil =>
    intro p hp
    simp [removeFuncFromOwner] at hp
  | cons q rest ih =>
    obtain ⟨a, es⟩ := q
    intro p hp
    by_cases ha : a = o
    · subst ha
      simp only [removeFuncFromOwner, if_true, eq_self_iff_true] at hp
      by_cases h3 : (es.filter (fun p => p.1 ≠ f)).isEmpty = true
      · rw [if_pos h3] at hp
        exact h2 p (List.mem_cons_of_mem _ hp)
      · rw [if_neg h3] at hp
        rcases List.mem_cons.mp hp with hp | hp
        · subst hp
          simpa [List.isEmpty_iff] using h3
        · exact h2 p (List.mem_cons_of_mem _ hp)
    · simp only [removeFuncFromOwner, if_neg ha] at hp
      rcases List.mem_cons.mp hp with hp | hp
      · subst hp
        exact h2 (a, es) (List.mem_cons_self _ _)
      · exact ih (fun q hq => h2 q (List.mem_cons_of_mem _ hq)) p hp

theorem removeFuncFromOwner_of_not_mem {t : Table} {o : Nat} (f : Nat)
    (h : o ∉ t.map Prod.fst) : removeFuncFromOwner t o f = t := by
  induction t with
  | nil => rfl
  | cons q rest ih =>
    obtain ⟨a, es⟩ := q
    simp only [List.map_cons, List.mem_cons] at h
    push_neg at h
    simp only [removeFuncFromOwner, if_neg (Ne.symm h.1)]
    rw [ih h.2]

theorem removeFuncFromOwner_lookup_other {t : Table} (o f : Nat) {o2 : Nat} (h : o2 ≠ o) :
    lookupOwner (removeFuncFromOwner t o f) o2 = lookupOwner t o2 := by
  induction t with
  | nil => rfl
  | cons q rest ih =>
    obtain ⟨a, es⟩ := q
    by_cases ha : a = o
    · have ha2 : a ≠ o2 := fun hE => h (hE.symm.trans ha)
      simp only [removeFuncFromOwner, if_pos ha]
      by_cases h3 : (es.filter (fun p => p.1 ≠ f)).isEmpty = true
      · rw [if_pos h3]
        simp [lookupOwner, ha2]
      · rw [if_neg h3]
        simp [lookupOwner, ha2]
    · simp only [removeFuncFromOwner, if_neg ha]
      by_cases hb : a = o2
      · simp [lookupOwner, hb]
      · simp [lookupOwner, hb, ih]

theorem removeFuncFromOwner_lookup_self {t : Table} {o f : Nat}
    (hnd : (t.map Prod.fst).Nodup) :
    lookupOwner (removeFuncFromOwner t o f) o = (lookupOwner t o).filter (fun p => p.1 ≠ f) := by
  induction t with
  | nil => rfl
  | cons q rest ih =>
    obtain ⟨a, es⟩ := q
    simp only [List.map_cons, List.nodup_cons] at hnd
    by_cases ha : a = o
    · simp only [removeFuncFromOwner, if_pos ha]
      have hno : o ∉ rest.map Prod.fst := ha ▸ hnd.1
      by_cases h3 : (es.filter (fun p => p.1 ≠ f)).isEmpty = true
      · rw [if_pos h3, lookupOwner_eq_nil_of_not_mem hno]
        simp only [lookupOwner, if_pos ha]
        exact (List.isEmpty_iff.mp h3).symm
      · rw [if_neg h3]
        simp [lookupOwner, ha]
    · simp only [removeFuncFromOwner, if_neg ha]
      simp only [lookupOwner, if_neg ha]
      exact ih hnd.2

theorem removeFuncFromOwner_mem_key {t : Table} {o f : Nat}
    (hnd : (t.map Prod.fst).Nodup) :
    o ∈ (removeFuncFromOwner t o f).map Prod.fst ↔
      (lookupOwner t o).filter (fun p => p.1 ≠ f) ≠ [] := by
  induction t with
  | nil => simp [removeFuncFromOwner, lookupOwner]
  | cons q rest ih =>
    obtain ⟨a, es⟩ := q
    simp only [List.map_cons, List.nodup_cons] at hnd
    by_cases ha : a = o
    · have hno : o ∉ rest.map Prod.fst := ha ▸ hnd.1
      simp only [removeFuncFromOwner, if_pos ha, lookupOwner, if_pos ha]
      by_cases h3 : (es.filter (fun p => p.1 ≠ f)).isEmpty = true
      · rw [if_pos h3, List.isEmpty_iff.mp h3]
        simp [hno]
      · rw [if_neg h3]
        have hne : es.filter (fun p => p.1 ≠ f) ≠ [] := fun hE => h3 (by rw [hE]; rfl)
        simp only [List.map_cons, List.mem_cons]
        exact ⟨fun _ => hne, fun _ => Or.inl ha.symm⟩
    · simp only [removeFuncFromOwner, if_neg ha, lookupOwner, if_neg ha, List.map_cons,
        List.mem_cons]
      rw [ih hnd.2]
      constructor
      · intro hc
        rcases hc with hc | hc
        · exact absurd hc.symm ha
        · exact hc
      · intro hc
        exact Or.inr hc

theorem removeFuncFromOwner_no_match {t : Table} {o f : Nat}
    (h : WF t) (hno : ∀ p ∈ lookupOwner t o, p.1 ≠ f) : removeFuncFromOwner t o f = t := by
  induction t with
  | nil => rfl
  | cons q rest ih =>
    obtain ⟨a, es⟩ := q
    by_cases ha : a = o
    · simp only [removeFuncFromOwner, if_pos ha]
      have hes : lookupOwner ((a, es) :: rest) o = es := by simp [lookupOwner, ha]
      rw [hes] at hno
      have hfe : es.filter (fun p => p.1 ≠ f) = es :=
        List.filter_eq_self.mpr (fun p hp => decide_eq_true (hno p hp))
      have hne : es ≠ [] := h.2 (a, es) (List.mem_cons_self _ _)
      rw [hfe, if_neg (by simpa [List.isEmpty_iff] using hne)]
    · simp only [removeFuncFromOwner, if_neg ha]
      have hlo : lookupOwner ((a, es) :: rest) o = lookupOwner rest o := by
        simp [lookupOwner, ha]
      rw [hlo] at hno
      rw [ih (WF_tail h) hno]

/-- C7: register and unregister operations preserve the listener-table
invariant: owner keys are pairwise distinct (a duplicate registration
extends the owner's existing entry list instead of adding a second key)
and every present key holds at least one entry. -/
theorem c7_table_invariant (t : Table) (m : Method) (d : Data) (o : Nat) (h : WF t) :
    wfExcept (registerListener t m d) ∧ WF (unregisterMethod t m) ∧
      WF (unregisterObject t o) := by
  refine ⟨?_, ?_, ?_⟩
  · cases hm : m.selfObj with
    | none => simp [registerListener, hm, wfExcept]
    | some ow =>
      simp only [registerListener, hm]
      exact appendEntry_WF ow _ h
  · cases hm : m.selfObj with
    | none => simpa [unregisterMethod, hm] using h
    | some ow =>
      simp only [unregisterMethod, hm]
      exact ⟨(removeFuncFromOwner_map_fst_sublist t ow m.func).nodup h.1,
        removeFuncFromOwner_entries_nonempty h.2⟩
  · exact ⟨((List.filter_sublist t).map Prod.fst).nodup h.1,
      fun p hp => h.2 p (List.mem_of_mem_filter hp)⟩

/-- Witness for `c7_table_invariant` at a concrete two-owner table. -/
theorem c7_table_invariant_witness :
    WF ([(1, [(5, none)]), (2, [(6, some 3)])] : Table) ∧
    (wfExcept (registerListener [(1, [(5, none)]), (2, [(6, some 3)])] (Method.mk 5 (some 1)) none)
      ∧ WF (unregisterMethod [(1, [(5, none)]), (2, [(6, some 3)])] (Method.mk 5 (some 1)))
      ∧ WF (unregisterObject [(1, [(5, none)]), (2, [(6, some 3)])] 2)) :=
  ⟨by decide, c7_table_invariant _ (Method.mk 5 (some 1)) none 2 (by decide)⟩

/-- C8: `register_listener` fails with the `InvalidListenerError` (Python
`ValueError`) exactly when the callable is not a bound method; a bound
method is appended at the end of its owner's entry list, the owner's key
being created (at the end of the table) when absent, and no other owner's
entries change. -/
theorem c8_register_errors (t : Table) (m : Method) (d : Data) :
    ((registerListener t m d = Except.error "Only an object can be a listener") ↔
      m.selfObj = none)
    ∧ (∀ o, m.selfObj = some o →
        registerListener t m d = Except.ok (appendEntry t o (m.func, d))
        ∧ lookupOwner (appendEntry t o (m.func, d)) o = lookupOwner t o ++ [(m.func, d)]
        ∧ (∀ o2, o2 ≠ o →
            lookupOwner (appendEntry t o (m.func, d)) o2 = lookupOwner t o2)
        ∧ (o ∉ t.map Prod.fst →
            appendEntry t o (m.func, d) = t ++ [(o, [(m.func, d)])])) := by
  constructor
  · constructor
    · intro hE
      cases hm : m.selfObj with
      | none => rfl
      | some ow => simp [registerListener, hm] at hE
    · intro hm
      simp [registerListener, hm]
  · intro o hm
    exact ⟨by simp [registerListener, hm], appendEntry_lookup_self t o _,
      fun o2 h2 => appendEntry_lookup_other t o _ h2,
      fun h2 => appendEntry_of_not_mem _ h2⟩

/-- Witness for `c8_register_errors`: a bound method registered for an
absent owner, and an unbound callable rejected. -/
theorem c8_register_errors_witness :
    registerListener [(2, [(5, none)])] (Method.mk 7 (some 1)) (some 9)
      = Except.ok (appendEntry [(2, [(5, none)])] 1 (7, some 9))
    ∧ lookupOwner (appendEntry [(2, [(5, none)])] 1 (7, some 9)) 1
      = lookupOwner [(2, [(5, none)])] 1 ++ [(7, some 9)]
    ∧ lookupOwner (appendEntry [(2, [(5, none)])] 1 (7, some 9)) 2
      = lookupOwner [(2, [(5, none)])] 2
    ∧ appendEntry [(2, [(5, none)])] 1 (7, some 9)
      = [(2, [(5, none)])] ++ [(1, [(7, some 9)])]
    ∧ registerListener [(2, [(5, none)])] (Method.mk 7 none) (some 9)
      = Except.error "Only an object can be a listener" :=
  ⟨((c8_register_errors [(2, [(5, none)])] (Method.mk 7 (some 1)) (some 9)).2 1 rfl).1,
   ((c8_register_errors [(2, [(5, none)])] (Method.mk 7 (some 1)) (some 9)).2 1 rfl).2.1,
   ((c8_register_errors [(2, [(5, none)])] (Method.mk 7 (some 1)) (some 9)).2 1 rfl).2.2.1 2
     (by decide),
   ((c8_register_errors [(2, [(5, none)])] (Method.mk 7 (some 1)) (some 9)).2 1 rfl).2.2.2
     (by decide),
   (c8_register_errors [(2, [(5, none)])] (Method.mk 7 none) (some 9)).1.mpr rfl⟩

/-- C9: `unregister_method` on a bound method removes exactly the matching
entries of its owner (those whose function equals the method's underlying
function), deletes the owner's key when its list becomes empty, leaves
every other owner untouched, and is a total no-op when the owner's key is
absent or no entry matches. -/
theorem c9_unregister_method (t : Table) (m : Method) (o f : Nat)
    (hself : m.selfObj = some o) (hfunc : m.func = f) (h : WF t) :
    lookupOwner (unregisterMethod t m) o = (lookupOwner t o).filter (fun p => p.1 ≠ f)
    ∧ (∀ o2, o2 ≠ o → lookupOwner (unregisterMethod t m) o2 = lookupOwner t o2)
    ∧ (o ∈ (unregisterMethod t m).map Prod.fst ↔
        (lookupOwner t o).filter (fun p => p.1 ≠ f) ≠ [])
    ∧ (o ∉ t.map Prod.fst → unregisterMethod t m = t)
    ∧ ((∀ p ∈ lookupOwner t o, p.1 ≠ f) → unregisterMethod t m = t) := by
  have hu : unregisterMethod t m = removeFuncFromOwner t o f := by
    simp [unregisterMethod, hself, hfunc]
  rw [hu]
  exact ⟨removeFuncFromOwner_lookup_self h.1,
    fun o2 h2 => removeFuncFromOwner_lookup_other o f h2,
    removeFuncFromOwner_mem_key h.1,
    fun h2 => removeFuncFromOwner_of_not_mem f h2,
    fun h2 => removeFuncFromOwner_no_match h h2⟩

/-- Witness for `c9_unregister_method`: owner 1 has a matching and a
non-matching entry; the matching one is removed, owner 2 is untouched. -/
theorem c9_unregister_method_witness :
    lookupOwner (unregisterMethod [(1, [(5, none), (6, some 4)]), (2, [(5, none)])]
        (Method.mk 5 (some 1))) 1
      = (lookupOwner [(1, [(5, none), (6, some 4)]), (2, [(5, none)])] 1).filter
          (fun p => p.1 ≠ 5)
    ∧ lookupOwner (unregisterMethod [(1, [(5, none), (6, some 4)]), (2, [(5, none)])]
        (Method.mk 5 (some 1))) 2
      = lookupOwner [(1, [(5, none), (6, some 4)]), (2, [(5, none)])] 2 := by
  have hc := c9_unregister_method [(1, [(5, none), (6, some 4)]), (2, [(5, none)])]
    (Method.mk 5 (some 1)) 1 5 rfl rfl (by decide)
  exact ⟨hc.1, hc.2.1 2 (by decide)⟩

/-- Discriminator: is this trace item a listener invocation? -/
def isInvokeItem : TItem → Bool
  | TItem.invoke _ _ _ _ _ _ => true
  | _ => false

theorem setError_frame (s : DState) (err : Err) :
    (setError s err).trace = s.trace ∧ (setError s err).queue = s.queue ∧
      (setError s err).exitFlag = s.exitFlag := by
  unfold setError
  by_cases h : s.error.isSome = true <;> simp [h]

theorem runActions_frame (as : List Action) : ∀ s : DState,
    (runActions s as).1.trace = s.trace ∧ (runActions s as).1.exitFlag = s.exitFlag ∧
      (runActions s as).1.error = s.error ∧
      ∃ Δ, (runActions s as).1.queue = s.queue ++ Δ := by
  induction as with
  | nil =>
    intro s
    exact ⟨rfl, rfl, rfl, [], by simp [runActions]⟩
  | cons a rest ih =>
    intro s
    cases a with
    | trigger e ed =>
      obtain ⟨h1, h2, h3, Δ, h4⟩ := ih (internalQueueEvent s e ed)
      simp only [runActions]
      refine ⟨h1, h2, h3, (e, ed) :: Δ, ?_⟩
      rw [h4]
      simp [internalQueueEvent]
    | register e m ld =>
      simp only [runActions]
      cases hreg : registerListener (s.tables e) m ld with
      | error msg =>
        simp only [hreg]
        refine ⟨?_, ?_, ?_, [], ?_⟩ <;> simp
      | ok t =>
        obtain ⟨h1, h2, h3, Δ, h4⟩ := ih (setTable s e t)
        simp only [hreg]
        exact ⟨h1, h2, h3, Δ, h4⟩
    | unregMethod e m =>
      obtain ⟨h1, h2, h3, Δ, h4⟩ := ih (setTable s e (unregisterMethod (s.tables e) m))
      simp only [runActions]
      exact ⟨h1, h2, h3, Δ, h4⟩
    | unregObject e o =>
      obtain ⟨h1, h2, h3, Δ, h4⟩ := ih (setTable s e (unregisterObject (s.tables e) o))
      simp only [runActions]
      exact ⟨h1, h2, h3, Δ, h4⟩
    | raiseExc =>
      exact ⟨rfl, rfl, rfl, [], by simp [runActions]⟩

theorem invokeListener_eq (env : Env) (owner f e : Nat) (ed ld : Data) (s : DState) :
    invokeListener env owner f e ed ld s
      = { (runActions s (env.prog f owner e ed ld)).1 with
          trace := (runActions s (env.prog f owner e ed ld)).1.trace
            ++ [TItem.invoke owner f e ed ld (runActions s (env.prog f owner e ed ld)).2] } := by
  unfold invokeListener
  cases runActions s (env.prog f owner e ed ld)
  rfl

theorem innerLoop_err (env : Env) (e : Nat) (ed : Data) (owner j fuel : Nat)
    {s : DState} (h : s.error.isSome = true) : innerLoop env e ed owner j fuel s = s := by
  cases fuel <;> simp [innerLoop, h]

theorem innerLoop_zero (env : Env) (e : Nat) (ed : Data) (owner j : Nat)
    {s : DState} (h : s.error.isSome = false) :
    innerLoop env e ed owner j 0 s = setError s Err.fuelOut := by
  simp [innerLoop, h]

theorem innerLoop_step (env : Env) (e : Nat) (ed : Data) (owner j fuel : Nat)
    {s : DState} (h : s.error.isSome = false)
    (hlt : j < (lookupOwner (s.tables e) owner).length) :
    innerLoop env e ed owner j (fuel + 1) s
      = innerLoop env e ed owner (j + 1) fuel
          (invokeListener env owner ((lookupOwner (s.tables e) owner).get ⟨j, hlt⟩).1 e ed
            ((lookupOwner (s.tables e) owner).get ⟨j, hlt⟩).2 s) := by
  simp [innerLoop, h, hlt]

theorem innerLoop_stop (env : Env) (e : Nat) (ed : Data) (owner j fuel : Nat)
    {s : DState} (h : s.error.isSome = false)
    (hge : ¬ j < (lookupOwner (s.tables e) owner).length) :
    innerLoop env e ed owner j (fuel + 1) s = s := by
  simp [innerLoop, h, hge]

theorem outerLoop_err (env : Env) (e : Nat) (ed : Data) (n0 i fuel : Nat)
    {s : DState} (h : s.error.isSome = true) : outerLoop env e ed n0 i fuel s = s := by
  cases fuel <;> simp [outerLoop, h]

theorem outerLoop_zero (env : Env) (e : Nat) (ed : Data) (n0 i : Nat)
    {s : DState} (h : s.error.isSome = false) :
    outerLoop env e ed n0 i 0 s = setError s Err.fuelOut := by
  simp [outerLoop, h]

theorem outerLoop_dict (env : Env) (e : Nat) (ed : Data) (n0 i fuel : Nat)
    {s : DState} (h : s.error.isSome = false) (hn : (s.tables e).length ≠ n0) :
    outerLoop env e ed n0 i (fuel + 1) s = setError s Err.dictChanged := by
  simp [outerLoop, h, hn]

theorem outerLoop_live (env : Env) (e : Nat) (ed : Data) (n0 i fuel : Nat)
    {s : DState} (h : s.error.isSome = false) (hn : (s.tables e).length = n0)
    (hlt : i < (s.tables e).length)
    (hlive : env.live ((s.tables e).get ⟨i, hlt⟩).1 = true) :
    outerLoop env e ed n0 i (fuel + 1) s
      = outerLoop env e ed n0 (i + 1) fuel
          (innerLoop env e ed ((s.tables e).get ⟨i, hlt⟩).1 0 fuel s) := by
  subst hn
  have hlive2 : env.live ((s.tables e)[i]).1 = true := hlive
  simp [outerLoop, h, hlt, hlive2]

theorem outerLoop_dead (env : Env) (e : Nat) (ed : Data) (n0 i fuel : Nat)
    {s : DState} (h : s.error.isSome = false) (hn : (s.tables e).length = n0)
    (hlt : i < (s.tables e).length)
    (hlive : env.live ((s.tables e).get ⟨i, hlt⟩).1 = false) :
    outerLoop env e ed n0 i (fuel + 1) s = outerLoop env e ed n0 (i + 1) fuel s := by
  subst hn
  have hlive2 : env.live ((s.tables e)[i]).1 = false := hlive
  simp [outerLoop, h, hlt, hlive2]

theorem outerLoop_stop (env : Env) (e : Nat) (ed : Data) (n0 i fuel : Nat)
    {s : DState} (h : s.error.isSome = false) (hn : (s.tables e).length = n0)
    (hge : ¬ i < (s.tables e).length) :
    outerLoop env e ed n0 i (fuel + 1) s = s := by
  subst hn
  simp [outerLoop, h, hge]

theorem dispatchEvent_err (env : Env) (fuel e : Nat) (ed : Data)
    {s : DState} (h : s.error.isSome = true) : dispatchEvent env fuel e ed s = s := by
  simp [dispatchEvent, h]

theorem dispatchEvent_eq (env : Env) (fuel e : Nat) (ed : Data)
    {s : DState} (h : s.error.isSome = false) :
    dispatchEvent env fuel e ed s
      = outerLoop env e ed (s.tables e).length 0 fuel
          { s with trace := s.trace ++ [TItem.dispatch e ed s.exitFlag] } := by
  simp [dispatchEvent, h]

theorem drainCheck_err (env : Env) (fuel : Nat)
    {s : DState} (h : s.error.isSome = true) : drainCheck env fuel s = s := by
  simp [drainCheck, h]

theorem drainCheck_skip (env : Env) (fuel : Nat)
    {s : DState} (h : s.error.isSome = false)
    (hq : (s.queue.isEmpty && !s.exitFlag) = false) : drainCheck env fuel s = s := by
  simp [drainCheck, h, hq]

theorem drainCheck_run_err (env : Env) (fuel : Nat)
    {s : DState} (h : s.error.isSome = false)
    (hq : (s.queue.isEmpty && !s.exitFlag) = true)
    (h2 : (dispatchEvent env fuel queueEmptyId none s).error.isSome = true) :
    drainCheck env fuel s = dispatchEvent env fuel queueEmptyId none s := by
  simp [drainCheck, h, hq, h2]

theorem drainCheck_run_set (env : Env) (fuel : Nat)
    {s : DState} (h : s.error.isSome = false)
    (hq : (s.queue.isEmpty && !s.exitFlag) = true)
    (h2 : (dispatchEvent env fuel queueEmptyId none s).error.isSome = false)
    (h3 : (dispatchEvent env fuel queueEmptyId none s).queue.isEmpty = true) :
    drainCheck env fuel s
      = { dispatchEvent env fuel queueEmptyId none s with
          exitFlag := true,
          trace := (dispatchEvent env fuel queueEmptyId none s).trace ++ [TItem.exitSet] } := by
  simp [drainCheck, h, hq, h2, h3]

theorem drainCheck_run_keep (env : Env) (fuel : Nat)
    {s : DState} (h : s.error.isSome = false)
    (hq : (s.queue.isEmpty && !s.exitFlag) = true)
    (h2 : (dispatchEvent env fuel queueEmptyId none s).error.isSome = false)
    (h3 : (dispatchEvent env fuel queueEmptyId none s).queue.isEmpty = false) :
    drainCheck env fuel s = dispatchEvent env fuel queueEmptyId none s := by
  simp [drainCheck, h, hq, h2, h3]

theorem drainLoop_err (env : Env) (fuel : Nat)
    {s : DState} (h : s.error.isSome = true) : drainLoop env fuel s = s := by
  cases fuel <;> simp [drainLoop, h]

theorem drainLoop_zero_nil (env : Env) {s : DState} (h : s.error.isSome = false)
    (hq : s.queue.isEmpty = true) : drainLoop env 0 s = s := by
  simp [drainLoop, h, hq]

theorem drainLoop_zero_cons (env : Env) {s : DState} (h : s.error.isSome = false)
    (hq : s.queue.isEmpty = false) : drainLoop env 0 s = setError s Err.fuelOut := by
  simp [drainLoop, h, hq]

theorem drainLoop_nil (env : Env) (fuel : Nat) {s : DState} (h : s.error.isSome = false)
    (hq : s.queue = []) : drainLoop env (fuel + 1) s = s := by
  simp [drainLoop, h, hq]

theorem drainLoop_cons (env : Env) (fuel e : Nat) (ed : Data) (rest : List (Nat × Data))
    {s : DState} (h : s.error.isSome = false) (hq : s.queue = (e, ed) :: rest) :
    drainLoop env (fuel + 1) s
      = drainLoop env fuel (drainCheck env (fuel + 1)
          (dispatchEvent env (fuel + 1) e ed { s with queue := rest })) := by
  simp [drainLoop, h, hq]

theorem loopRun_eq (env : Env) (fuel : Nat) (s : DState) :
    loopRun env fuel s
      = dispatchEvent env fuel loopEndId none
          (drainLoop env fuel
            (if !(dispatchEvent env fuel loopStartId none s).exitFlag
                && (dispatchEvent env fuel loopStartId none s).queue.isEmpty then
              dispatchEvent env fuel queueEmptyId none
                (dispatchEvent env fuel loopStartId none s)
            else dispatchEvent env fuel loopStartId none s)) := rfl

theorem invokeListener_frame (env : Env) (owner f e : Nat) (ed ld : Data) (s : DState) :
    ∃ r Δ, (invokeListener env owner f e ed ld s).trace
        = s.trace ++ [TItem.invoke owner f e ed ld r]
      ∧ (invokeListener env owner f e ed ld s).queue = s.queue ++ Δ
      ∧ (invokeListener env owner f e ed ld s).exitFlag = s.exitFlag
      ∧ (invokeListener env owner f e ed ld s).error = s.error := by
  obtain ⟨h1, h2, h3, Δ, h4⟩ := runActions_frame (env.prog f owner e ed ld) s
  rw [invokeListener_eq]
  exact ⟨(runActions s (env.prog f owner e ed ld)).2, Δ, by rw [h1], h4, h2, h3⟩

theorem innerLoop_frame (env : Env) (e : Nat) (ed : Data) (owner : Nat) :
    ∀ (fuel j : Nat) (s : DState),
      ∃ Δt Δq, (innerLoop env e ed owner j fuel s).trace = s.trace ++ Δt
        ∧ (∀ x ∈ Δt, isInvokeItem x = true)
        ∧ (innerLoop env e ed owner j fuel s).queue = s.queue ++ Δq
        ∧ (innerLoop env e ed owner j fuel s).exitFlag = s.exitFlag := by
  intro fuel
  induction fuel with
  | zero =>
    intro j s
    refine ⟨[], [], ?_⟩
    cases h : s.error.isSome with
    | true => simp [innerLoop_err env e ed owner j 0 h]
    | false =>
      rw [innerLoop_zero env e ed owner j h]
      obtain ⟨hf1, hf2, hf3⟩ := setError_frame s Err.fuelOut
      simp [hf1, hf2, hf3]
  | succ fuel ih =>
    intro j s
    cases h : s.error.isSome with
    | true => exact ⟨[], [], by simp [innerLoop_err env e ed owner j (fuel + 1) h]⟩
    | false =>
      by_cases hlt : j < (lookupOwner (s.tables e) owner).length
      · rw [innerLoop_step env e ed owner j fuel h hlt]
        obtain ⟨r, Δ1, ha1, ha2, ha3, ha4⟩ :=
          invokeListener_frame env owner ((lookupOwner (s.tables e) owner).get ⟨j, hlt⟩).1
            e ed ((lookupOwner (s.tables e) owner).get ⟨j, hlt⟩).2 s
        obtain ⟨Δt, Δq, hb1, hb2, hb3, hb4⟩ :=
          ih (j + 1)
            (invokeListener env owner ((lookupOwner (s.tables e) owner).get ⟨j, hlt⟩).1
              e ed ((lookupOwner (s.tables e) owner).get ⟨j, hlt⟩).2 s)
        refine ⟨TItem.invoke owner ((lookupOwner (s.tables e) owner).get ⟨j, hlt⟩).1 e ed
            ((lookupOwner (s.tables e) owner).get ⟨j, hlt⟩).2 r :: Δt, Δ1 ++ Δq,
          ?_, ?_, ?_, ?_⟩
        · rw [hb1, ha1]
          simp
        · intro x hx
          rcases List.mem_cons.mp hx with hx | hx
          · subst hx
            rfl
          · exact hb2 x hx
        · rw [hb3, ha2]
          simp
        · rw [hb4, ha3]
      · exact ⟨[], [], by simp [innerLoop_stop env e ed owner j fuel h hlt]⟩

theorem outerLoop_frame (env : Env) (e : Nat) (ed : Data) (n0 : Nat) :
    ∀ (fuel i : Nat) (s : DState),
      ∃ Δt Δq, (outerLoop env e ed n0 i fuel s).trace = s.trace ++ Δt
        ∧ (∀ x ∈ Δt, isInvokeItem x = true)
        ∧ (outerLoop env e ed n0 i fuel s).queue = s.queue ++ Δq
        ∧ (outerLoop env e ed n0 i fuel s).exitFlag = s.exitFlag := by
  intro fuel
  induction fuel with
  | zero =>
    intro i s
    refine ⟨[], [], ?_⟩
    cases h : s.error.isSome with
    | true => simp [outerLoop_err env e ed n0 i 0 h]
    | false =>
      rw [outerLoop_zero env e ed n0 i h]
      obtain ⟨hf1, hf2, hf3⟩ := setError_frame s Err.fuelOut
      simp [hf1, hf2, hf3]
  | succ fuel ih =>
    intro i s
    cases h : s.error.isSome with
    | true => exact ⟨[], [], by simp [outerLoop_err env e ed n0 i (fuel + 1) h]⟩
    | false =>
      by_cases hn : (s.tables e).length = n0
      · by_cases hlt : i < (s.tables e).length
        · cases hlive : env.live ((s.tables e).get ⟨i, hlt⟩).1 with
          | true =>
            rw [outerLoop_live env e ed n0 i fuel h hn hlt hlive]
            obtain ⟨Δt1, Δq1, ha1, ha2, ha3, ha4⟩ :=
              innerLoop_frame env e ed ((s.tables e).get ⟨i, hlt⟩).1 fuel 0 s
            obtain ⟨Δt2, Δq2, hb1, hb2, hb3, hb4⟩ :=
              ih (i + 1) (innerLoop env e ed ((s.tables e).get ⟨i, hlt⟩).1 0 fuel s)
            refine ⟨Δt1 ++ Δt2, Δq1 ++ Δq2, ?_, ?_, ?_, ?_⟩
            · rw [hb1, ha1]
              simp
            · intro x hx
              rcases List.mem_append.mp hx with hx | hx
              · exact ha2 x hx
              · exact hb2 x hx
            · rw [hb3, ha3]
              simp
            · rw [hb4, ha4]
          | false =>
            rw [outerLoop_dead env e ed n0 i fuel h hn hlt hlive]
            exact ih (i + 1) s
        · exact ⟨[], [], by simp [outerLoop_stop env e ed n0 i fuel h hn hlt]⟩
      · refine ⟨[], [], ?_⟩
        rw [outerLoop_dict env e ed n0 i fuel h hn]
        obtain ⟨hf1, hf2, hf3⟩ := setError_frame s Err.dictChanged
        simp [hf1, hf2, hf3]

theorem dispatchEvent_frame (env : Env) (fuel e : Nat) (ed : Data) (s : DState)
    (h : s.error = none) :
    ∃ Δt Δq, (dispatchEvent env fuel e ed s).trace
        = s.trace ++ TItem.dispatch e ed s.exitFlag :: Δt
      ∧ (∀ x ∈ Δt, isInvokeItem x = true)
      ∧ (dispatchEvent env fuel e ed s).queue = s.queue ++ Δq
      ∧ (dispatchEvent env fuel e ed s).exitFlag = s.exitFlag := by
  have hno : s.error.isSome = false := by simp [h]
  rw [dispatchEvent_eq env fuel e ed hno]
  obtain ⟨Δt, Δq, h1, h2, h3, h4⟩ :=
    outerLoop_frame env e ed (s.tables e).length fuel 0
      { s with trace := s.trace ++ [TItem.dispatch e ed s.exitFlag] }
  refine ⟨Δt, Δq, ?_, h2, h3, h4⟩
  rw [h1]
  simp

theorem dispatchEvent_mono (env : Env) (fuel e : Nat) (ed : Data) (s : DState) :
    ∃ Δt Δq, (dispatchEvent env fuel e ed s).trace = s.trace ++ Δt
      ∧ (dispatchEvent env fuel e ed s).queue = s.queue ++ Δq
      ∧ (dispatchEvent env fuel e ed s).exitFlag = s.exitFlag := by
  cases he : s.error with
  | none =>
    obtain ⟨Δt, Δq, h1, h2, h3, h4⟩ := dispatchEvent_frame env fuel e ed s he
    exact ⟨TItem.dispatch e ed s.exitFlag :: Δt, Δq, h1, h3, h4⟩
  | some err =>
    rw [dispatchEvent_err env fuel e ed (by simp [he])]
    exact ⟨[], [], by simp, by simp, rfl⟩

theorem drainCheck_mono (env : Env) (fuel : Nat) (s : DState) :
    ∃ Δt, (drainCheck env fuel s).trace = s.trace ++ Δt := by
  cases h : s.error.isSome with
  | true => exact ⟨[], by simp [drainCheck_err env fuel h]⟩
  | false =>
    cases hq : (s.queue.isEmpty && !s.exitFlag) with
    | false => exact ⟨[], by simp [drainCheck_skip env fuel h hq]⟩
    | true =>
      obtain ⟨Δt, Δq, h1, h2, h3⟩ := dispatchEvent_mono env fuel queueEmptyId none s
      cases h2e : (dispatchEvent env fuel queueEmptyId none s).error.isSome with
      | true => exact ⟨Δt, by rw [drainCheck_run_err env fuel h hq h2e]; exact h1⟩
      | false =>
        cases h3q : (dispatchEvent env fuel queueEmptyId none s).queue.isEmpty with
        | true =>
          refine ⟨Δt ++ [TItem.exitSet], ?_⟩
          rw [drainCheck_run_set env fuel h hq h2e h3q]
          simp only []
          rw [h1]
          simp
        | false => exact ⟨Δt, by rw [drainCheck_run_keep env fuel h hq h2e h3q]; exact h1⟩

theorem drainLoop_mono (env : Env) : ∀ (fuel : Nat) (s : DState),
    ∃ Δt, (drainLoop env fuel s).trace = s.trace ++ Δt := by
  intro fuel
  induction fuel with
  | zero =>
    intro s
    cases h : s.error.isSome with
    | true => exact ⟨[], by simp [drainLoop_err env 0 h]⟩
    | false =>
      cases hq : s.queue.isEmpty with
      | true => exact ⟨[], by simp [drainLoop_zero_nil env h hq]⟩
      | false =>
        obtain ⟨hf1, hf2, hf3⟩ := setError_frame s Err.fuelOut
        exact ⟨[], by simp [drainLoop_zero_cons env h hq, hf1]⟩
  | succ fuel ih =>
    intro s
    cases h : s.error.isSome with
    | true => exact ⟨[], by simp [drainLoop_err env (fuel + 1) h]⟩
    | false =>
      cases hq : s.queue with
      | nil => exact ⟨[], by simp [drainLoop_nil env fuel h hq]⟩
      | cons p rest =>
        obtain ⟨e, ed⟩ := p
        rw [drainLoop_cons env fuel e ed rest h hq]
        obtain ⟨Δ1, Δq1, ha1, ha2, ha3⟩ :=
          dispatchEvent_mono env (fuel + 1) e ed { s with queue := rest }
        obtain ⟨Δ2, hb1⟩ :=
          drainCheck_mono env (fuel + 1)
            (dispatchEvent env (fuel + 1) e ed { s with queue := rest })
        obtain ⟨Δ3, hc1⟩ := ih (drainCheck env (fuel + 1)
          (dispatchEvent env (fuel + 1) e ed { s with queue := rest }))
        refine ⟨Δ1 ++ Δ2 ++ Δ3, ?_⟩
        rw [hc1, hb1, ha1]
        simp

/-- An action that only enqueues an event or raises: such actions never touch
any listener table. -/
def tameAct : Action → Bool
  | Action.trigger _ _ => true
  | Action.raiseExc => true
  | _ => false

/-- Environment whose listeners only trigger events or raise. -/
def Tame (env : Env) : Prop :=
  ∀ f o e ed ld, ∀ a ∈ env.prog f o e ed ld, tameAct a = true

/-- Events enqueued by an action list before its first raise, in order. -/
def triggersOf : List Action → List (Nat × Data)
  | [] => []
  | Action.raiseExc :: _ => []
  | Action.trigger e ed :: rest => (e, ed) :: triggersOf rest
  | Action.register _ _ _ :: rest => triggersOf rest
  | Action.unregMethod _ _ :: rest => triggersOf rest
  | Action.unregObject _ _ :: rest => triggersOf rest

/-- Whether an action list reaches an explicit raise. -/
def raisesOf : List Action → Bool
  | [] => false
  | Action.raiseExc :: _ => true
  | _ :: rest => raisesOf rest

theorem runActions_tame (as : List Action) (h : ∀ a ∈ as, tameAct a = true) :
    ∀ s : DState,
      runActions s as = ({ s with queue := s.queue ++ triggersOf as }, raisesOf as) := by
  induction as with
  | nil =>
    intro s
    simp [runActions, triggersOf, raisesOf]
  | cons a rest ih =>
    intro s
    cases a with
    | trigger e ed =>
      have hr := ih (fun a ha => h a (List.mem_cons_of_mem _ ha)) (internalQueueEvent s e ed)
      simp only [runActions, hr, triggersOf, raisesOf]
      congr 1
      simp [internalQueueEvent]
    | raiseExc =>
      simp [runActions, triggersOf, raisesOf]
    | register e m ld =>
      exact absurd (h _ (List.mem_cons_self _ _)) (by simp [tameAct])
    | unregMethod e m =>
      exact absurd (h _ (List.mem_cons_self _ _)) (by simp [tameAct])
    | unregObject e o =>
      exact absurd (h _ (List.mem_cons_self _ _)) (by simp [tameAct])

/-- Trace produced by invoking, in order, the entries of one owner under a
tame environment. -/
def tameTrace (env : Env) (o e : Nat) (ed : Data) : List (Nat × Data) → List TItem
  | [] => []
  | (f, ld) :: rest =>
    TItem.invoke o f e ed ld (raisesOf (env.prog f o e ed ld)) :: tameTrace env o e ed rest

/-- Queue entries appended by invoking, in order, the entries of one owner
under a tame environment. -/
def tameQueue (env : Env) (o e : Nat) (ed : Data) : List (Nat × Data) → List (Nat × Data)
  | [] => []
  | (f, ld) :: rest => triggersOf (env.prog f o e ed ld) ++ tameQueue env o e ed rest

theorem innerLoop_tame (env : Env) (hT : Tame env) (e o : Nat) (ed : Data) :
    ∀ (suf : List (Nat × Data)) (fuel j : Nat) (s : DState),
      s.error = none →
      (lookupOwner (s.tables e) o).drop j = suf →
      suf.length + 1 ≤ fuel →
      innerLoop env e ed o j fuel s
        = { s with queue := s.queue ++ tameQueue env o e ed suf,
                   trace := s.trace ++ tameTrace env o e ed suf } := by
  intro suf
  induction suf with
  | nil =>
    intro fuel j s herr hdrop hfuel
    have hno : s.error.isSome = false := by simp [herr]
    obtain ⟨m, rfl⟩ : ∃ m, fuel = m + 1 := by
      cases fuel with
      | zero => omega
      | succ m => exact ⟨m, rfl⟩
    have hge : ¬ j < (lookupOwner (s.tables e) o).length := by
      have := List.drop_eq_nil_iff.mp hdrop
      omega
    rw [innerLoop_stop env e ed o j m hno hge]
    simp [tameQueue, tameTrace]
  | cons p suf2 ih =>
    intro fuel j s herr hdrop hfuel
    obtain ⟨f, ld⟩ := p
    have hno : s.error.isSome = false := by simp [herr]
    obtain ⟨m, rfl⟩ : ∃ m, fuel = m + 1 := by
      cases fuel with
      | zero => omega
      | succ m => exact ⟨m, rfl⟩
    have hlt : j < (lookupOwner (s.tables e) o).length := by
      by_contra hge
      rw [List.drop_eq_nil_of_le (by omega)] at hdrop
      exact List.cons_ne_nil _ _ hdrop.symm
    have hcons := List.drop_eq_getElem_cons hlt
    rw [hdrop] at hcons
    have hget : (lookupOwner (s.tables e) o).get ⟨j, hlt⟩ = (f, ld) :=
      ((List.cons_eq_cons.mp hcons).1).symm
    have htail : (lookupOwner (s.tables e) o).drop (j + 1) = suf2 :=
      ((List.cons_eq_cons.mp hcons).2).symm
    rw [innerLoop_step env e ed o j m hno hlt, hget]
    have hacts := runActions_tame (env.prog f o e ed ld) (hT f o e ed ld) s
    rw [invokeListener_eq, hacts]
    have := ih m (j + 1)
      { s with queue := s.queue ++ triggersOf (env.prog f o e ed ld),
               trace := s.trace ++ [TItem.invoke o f e ed ld
                  (raisesOf (env.prog f o e ed ld))] }
      herr htail (by simpa using hfuel)
    rw [this]
    simp [tameQueue, tameTrace, List.append_assoc]

theorem innerLoop_step2 (env : Env) (e : Nat) (ed : Data) (o j fuel f : Nat) (ld : Data)
    (s : DState) (h : s.error.isSome = false)
    (hlt : j < (lookupOwner (s.tables e) o).length)
    (hget : (lookupOwner (s.tables e) o).get ⟨j, hlt⟩ = (f, ld)) :
    innerLoop env e ed o j (fuel + 1) s
      = innerLoop env e ed o (j + 1) fuel (invokeListener env o f e ed ld s) := by
  rw [innerLoop_step env e ed o j fuel h hlt, hget]

theorem outerLoop_live2 (env : Env) (e : Nat) (ed : Data) (n0 i fuel oo : Nat)
    (s : DState) (h : s.error.isSome = false) (hn : (s.tables e).length = n0)
    (hlt : i < (s.tables e).length)
    (hgo : ((s.tables e).get ⟨i, hlt⟩).1 = oo) (hlive : env.live oo = true) :
    outerLoop env e ed n0 i (fuel + 1) s
      = outerLoop env e ed n0 (i + 1) fuel (innerLoop env e ed oo 0 fuel s) := by
  subst hgo
  exact outerLoop_live env e ed n0 i fuel h hn hlt hlive

theorem dispatchEvent_one_owner (env : Env) (hT : Tame env) (e o : Nat) (ed : Data)
    (es : List (Nat × Data)) (fuel : Nat) (s : DState)
    (herr : s.error = none) (htab : s.tables e = [(o, es)])
    (hlive : env.live o = true) (hfuel : es.length + 2 ≤ fuel) :
    dispatchEvent env fuel e ed s
      = { s with queue := s.queue ++ tameQueue env o e ed es,
                 trace := s.trace
                   ++ TItem.dispatch e ed s.exitFlag :: tameTrace env o e ed es } := by
  have hno : s.error.isSome = false := by simp [herr]
  obtain ⟨m, rfl⟩ : ∃ m, fuel = m + 1 := by
    cases fuel with
    | zero => omega
    | succ m => exact ⟨m, rfl⟩
  rw [dispatchEvent_eq env (m + 1) e ed hno]
  rw [outerLoop_live2 env e ed (s.tables e).length 0 m o
    { s with trace := s.trace ++ [TItem.dispatch e ed s.exitFlag] } hno rfl
    (by rw [show ({ s with trace := s.trace ++ [TItem.dispatch e ed s.exitFlag]
      } : DState).tables e = [(o, es)] from htab]; simp)
    (by simp [htab]) hlive]
  rw [innerLoop_tame env hT e o ed es m 0
    { s with trace := s.trace ++ [TItem.dispatch e ed s.exitFlag] }
    herr (by simp [lookupOwner, htab]) (by omega)]
  obtain ⟨m2, rfl⟩ : ∃ m2, m = m2 + 1 := by
    cases m with
    | zero => omega
    | succ m2 => exact ⟨m2, rfl⟩
  have hstop := @outerLoop_stop env e ed (s.tables e).length 1 m2
    ({ s with
        queue := s.queue ++ tameQueue env o e ed es,
        trace := (s.trace ++ [TItem.dispatch e ed s.exitFlag]) ++ tameTrace env o e ed es }
      : DState)
    hno rfl (by simp [htab])
  rw [hstop]
  simp

/-- C6: registering the same bound callback twice with different
`listener_data` on one event stores two entries, in registration order,
under the one owner key; a dispatch of that event then invokes the callback
twice, in that order, the first invocation receiving the first
`listener_data` and the second the second. -/
theorem c6_duplicate_registration :
    (∀ (t : Table) (o f : Nat) (d1 d2 : Data),
      registerListener t (Method.mk f (some o)) d1 = Except.ok (appendEntry t o (f, d1))
      ∧ lookupOwner (appendEntry (appendEntry t o (f, d1)) o (f, d2)) o
          = lookupOwner t o ++ [(f, d1), (f, d2)])
    ∧ ∀ (env : Env) (e o f : Nat) (ed d1 d2 : Data) (fuel : Nat) (s : DState),
        Tame env → env.live o = true → s.error = none →
        s.tables e = [(o, [(f, d1), (f, d2)])] →
        (dispatchEvent env (fuel + 4) e ed s).trace
          = s.trace ++ [TItem.dispatch e ed s.exitFlag,
              TItem.invoke o f e ed d1 (raisesOf (env.prog f o e ed d1)),
              TItem.invoke o f e ed d2 (raisesOf (env.prog f o e ed d2))] := by
  constructor
  · intro t o f d1 d2
    refine ⟨by simp [registerListener], ?_⟩
    rw [appendEntry_lookup_self, appendEntry_lookup_self]
    simp
  · intro env e o f ed d1 d2 fuel s hT hlive herr htab
    rw [dispatchEvent_one_owner env hT e o ed [(f, d1), (f, d2)] (fuel + 4) s herr htab hlive
      (by
        have h2 : ([(f, d1), (f, d2)] : List (Nat × Data)).length = 2 := rfl
        omega)]
    simp [tameTrace]

/-- Witness for `c6_duplicate_registration`: callback 9 of owner 1 is
registered with data `some 7` and `some 8` on event 5 and invoked twice in
that order by one dispatch. -/
theorem c6_duplicate_registration_witness :
    (registerListener [] (Method.mk 9 (some 1)) (some 7)
        = Except.ok (appendEntry [] 1 (9, some 7))
      ∧ lookupOwner (appendEntry (appendEntry [] 1 (9, some 7)) 1 (9, some 8)) 1
        = lookupOwner [] 1 ++ [(9, some 7), (9, some 8)])
    ∧ (dispatchEvent
        { prog := fun _ _ _ _ _ => [], live := fun _ => true } 4 5 none
        { tables := fun e => if e = 5 then [(1, [(9, some 7), (9, some 8)])] else [],
          queue := [], exitFlag := false, trace := [], error := none }).trace
      = [TItem.dispatch 5 none false,
         TItem.invoke 1 9 5 none (some 7) false,
         TItem.invoke 1 9 5 none (some 8) false] :=
  ⟨c6_duplicate_registration.1 [] 1 9 (some 7) (some 8),
   c6_duplicate_registration.2
     { prog := fun _ _ _ _ _ => [], live := fun _ => true } 5 1 9 none (some 7) (some 8) 0
     { tables := fun e => if e = 5 then [(1, [(9, some 7), (9, some 8)])] else [],
       queue := [], exitFlag := false, trace := [], error := none }
     (fun f o e ed ld a ha => absurd ha (List.not_mem_nil a)) rfl rfl (by decide)⟩

/-- C4: failure isolation.  With the popped event owning two listeners whose
first invocation raises, the raise is caught: the second listener is still
invoked (its recorded invocation follows the raised one), and the drain
loop then pops and dispatches the next queued event. -/
theorem c4_failure_isolation (env : Env) (e e2 o f1 f2 : Nat)
    (ed ed2 d1 d2 : Data) (rest : List (Nat × Data)) (fuel : Nat) (s : DState)
    (hT : Tame env) (hlive : env.live o = true) (herr : s.error = none)
    (hq : s.queue = (e, ed) :: (e2, ed2) :: rest)
    (htab : s.tables e = [(o, [(f1, d1), (f2, d2)])])
    (hraise : raisesOf (env.prog f1 o e ed d1) = true) :
    ∃ t2, (drainLoop env (fuel + 4) s).trace
      = s.trace ++ TItem.dispatch e ed s.exitFlag
          :: TItem.invoke o f1 e ed d1 true
          :: TItem.invoke o f2 e ed d2 (raisesOf (env.prog f2 o e ed d2))
          :: TItem.dispatch e2 ed2 s.exitFlag :: t2 := by
  have hno : s.error.isSome = false := by simp [herr]
  rw [drainLoop_cons env (fuel + 3) e ed ((e2, ed2) :: rest) hno hq]
  have hD := dispatchEvent_one_owner env hT e o ed [(f1, d1), (f2, d2)] (fuel + 3 + 1)
    { s with queue := (e2, ed2) :: rest } herr htab hlive
    (by
      have h2 : ([(f1, d1), (f2, d2)] : List (Nat × Data)).length = 2 := rfl
      omega)
  have herr2 : (dispatchEvent env (fuel + 3 + 1) e ed
      { s with queue := (e2, ed2) :: rest }).error.isSome = false := by
    rw [hD]
    exact hno
  have hq2 : ((dispatchEvent env (fuel + 3 + 1) e ed
        { s with queue := (e2, ed2) :: rest }).queue.isEmpty
      && !(dispatchEvent env (fuel + 3 + 1) e ed
        { s with queue := (e2, ed2) :: rest }).exitFlag) = false := by
    rw [hD]
    rfl
  rw [drainCheck_skip env (fuel + 3 + 1) herr2 hq2]
  have hq3 : (dispatchEvent env (fuel + 3 + 1) e ed
        { s with queue := (e2, ed2) :: rest }).queue
      = (e2, ed2) :: (rest ++ tameQueue env o e ed [(f1, d1), (f2, d2)]) := by
    rw [hD]
    rfl
  rw [drainLoop_cons env (fuel + 2) e2 ed2
    (rest ++ tameQueue env o e ed [(f1, d1), (f2, d2)]) herr2 hq3]
  have hDerr : ({ dispatchEvent env (fuel + 3 + 1) e ed { s with queue := (e2, ed2) :: rest }
      with queue := rest ++ tameQueue env o e ed [(f1, d1), (f2, d2)] } : DState).error
      = none := by
    show (dispatchEvent env (fuel + 3 + 1) e ed
      { s with queue := (e2, ed2) :: rest }).error = none
    rw [hD]
    exact herr
  obtain ⟨Δt, Δq, hF1, hF2, hF3, hF4⟩ := dispatchEvent_frame env (fuel + 2 + 1) e2 ed2
    { dispatchEvent env (fuel + 3 + 1) e ed { s with queue := (e2, ed2) :: rest }
      with queue := rest ++ tameQueue env o e ed [(f1, d1), (f2, d2)] } hDerr
  obtain ⟨Δc, hC⟩ := drainCheck_mono env (fuel + 2 + 1)
    (dispatchEvent env (fuel + 2 + 1) e2 ed2
      { dispatchEvent env (fuel + 3 + 1) e ed { s with queue := (e2, ed2) :: rest }
        with queue := rest ++ tameQueue env o e ed [(f1, d1), (f2, d2)] })
  obtain ⟨Δd, hL⟩ := drainLoop_mono env (fuel + 2)
    (drainCheck env (fuel + 2 + 1)
      (dispatchEvent env (fuel + 2 + 1) e2 ed2
        { dispatchEvent env (fuel + 3 + 1) e ed { s with queue := (e2, ed2) :: rest }
          with queue := rest ++ tameQueue env o e ed [(f1, d1), (f2, d2)] }))
  refine ⟨Δt ++ (Δc ++ Δd), ?_⟩
  rw [hL, hC, hF1]
  have htrace : ({ dispatchEvent env (fuel + 3 + 1) e ed { s with queue := (e2, ed2) :: rest }
      with queue := rest ++ tameQueue env o e ed [(f1, d1), (f2, d2)] } : DState).trace
      = s.trace ++ TItem.dispatch e ed s.exitFlag
          :: tameTrace env o e ed [(f1, d1), (f2, d2)] := by
    show (dispatchEvent env (fuel + 3 + 1) e ed
      { s with queue := (e2, ed2) :: rest }).trace = _
    rw [hD]
  have hex : ({ dispatchEvent env (fuel + 3 + 1) e ed { s with queue := (e2, ed2) :: rest }
      with queue := rest ++ tameQueue env o e ed [(f1, d1), (f2, d2)] } : DState).exitFlag
      = s.exitFlag := by
    show (dispatchEvent env (fuel + 3 + 1) e ed
      { s with queue := (e2, ed2) :: rest }).exitFlag = _
    rw [hD]
  rw [htrace, hex]
  simp [tameTrace, hraise]

/-- Witness for `c4_failure_isolation`: listener 21 raises, listener 22 of
the same event 5 still runs, and the next queued event 6 is dispatched. -/
theorem c4_failure_isolation_witness :
    ∃ t2, (drainLoop
        { prog := fun f _ _ _ _ => if f = 21 then [Action.raiseExc] else [],
          live := fun _ => true } 4
        { tables := fun e => if e = 5 then [(1, [(21, none), (22, some 2)])] else [],
          queue := [(5, none), (6, some 1)], exitFlag := false, trace := [],
          error := none }).trace
      = [] ++ TItem.dispatch 5 none false
          :: TItem.invoke 1 21 5 none none true
          :: TItem.invoke 1 22 5 none (some 2) false
          :: TItem.dispatch 6 (some 1) false :: t2 :=
  c4_failure_isolation
    { prog := fun f _ _ _ _ => if f = 21 then [Action.raiseExc] else [],
      live := fun _ => true } 5 6 1 21 22 none (some 1) none (some 2) [] 0
    { tables := fun e => if e = 5 then [(1, [(21, none), (22, some 2)])] else [],
      queue := [(5, none), (6, some 1)], exitFlag := false, trace := [], error := none }
    (by
      intro f o e ed ld a ha
      have ha2 : a ∈ (if f = 21 then [Action.raiseExc] else ([] : List Action)) := ha
      by_cases hf : f = 21
      · rw [if_pos hf] at ha2
        have ha3 := List.mem_singleton.mp ha2
        subst ha3
        rfl
      · rw [if_neg hf] at ha2
        exact absurd ha2 (List.not_mem_nil a))
    rfl rfl rfl (by decide) (by decide)

theorem invokeListener_nil (env : Env) (owner f e : Nat) (ed ld : Data) (s : DState)
    (hp : env.prog f owner e ed ld = []) :
    invokeListener env owner f e ed ld s
      = { s with trace := s.trace ++ [TItem.invoke owner f e ed ld false] } := by
  rw [invokeListener_eq, hp]
  rfl

theorem invokeListener_register (env : Env) (owner f e : Nat) (ed ld : Data) (s : DState)
    (e2 : Nat) (m : Method) (d : Data)
    (hp : env.prog f owner e ed ld = [Action.register e2 m d]) (t2 : Table)
    (hreg : registerListener (s.tables e2) m d = Except.ok t2) :
    invokeListener env owner f e ed ld s
      = { setTable s e2 t2 with
          trace := s.trace ++ [TItem.invoke owner f e ed ld false] } := by
  rw [invokeListener_eq, hp]
  rw [show runActions s [Action.register e2 m d] = (setTable s e2 t2, false) from by
    simp [runActions, hreg]]
  rfl

/-- C1 (amended): `__dispatch_event` iterates the event's live listener
table, not a snapshot.  When the sole listener `f1` of an owner registers a
further callback `f2` on the very event being dispatched, the appended
entry is seen by the in-progress iteration: `f2` is invoked by that same
dispatch, and the table mutation is visible afterwards. -/
theorem c1_live_iteration (env : Env) (e o f1 f2 : Nat) (ed : Data) (fuel : Nat) (s : DState)
    (hlive : env.live o = true) (herr : s.error = none)
    (htab : s.tables e = [(o, [(f1, none)])])
    (hp1 : env.prog f1 o e ed none = [Action.register e (Method.mk f2 (some o)) none])
    (hp2 : env.prog f2 o e ed none = []) :
    (dispatchEvent env (fuel + 4) e ed s).trace
      = s.trace ++ [TItem.dispatch e ed s.exitFlag,
          TItem.invoke o f1 e ed none false,
          TItem.invoke o f2 e ed none false]
    ∧ (dispatchEvent env (fuel + 4) e ed s).tables e = [(o, [(f1, none), (f2, none)])] := by
  have hno : s.error.isSome = false := by simp [herr]
  have hreg : registerListener
      (({ s with trace := s.trace ++ [TItem.dispatch e ed s.exitFlag] } : DState).tables e)
      (Method.mk f2 (some o)) none
      = Except.ok [(o, [(f1, none), (f2, none)])] := by
    show registerListener (s.tables e) (Method.mk f2 (some o)) none = _
    rw [htab]
    simp [registerListener, appendEntry]
  have E0 : dispatchEvent env (fuel + 4) e ed s
      = outerLoop env e ed (s.tables e).length 0 (fuel + 4)
          { s with trace := s.trace ++ [TItem.dispatch e ed s.exitFlag] } :=
    dispatchEvent_eq env (fuel + 4) e ed hno
  have E1 : outerLoop env e ed (s.tables e).length 0 (fuel + 4)
        { s with trace := s.trace ++ [TItem.dispatch e ed s.exitFlag] }
      = outerLoop env e ed (s.tables e).length 1 (fuel + 3)
          (innerLoop env e ed o 0 (fuel + 3)
            { s with trace := s.trace ++ [TItem.dispatch e ed s.exitFlag] }) :=
    outerLoop_live2 env e ed (s.tables e).length 0 (fuel + 3) o
      { s with trace := s.trace ++ [TItem.dispatch e ed s.exitFlag] } hno rfl
      (by simp [htab]) (by simp [htab]) hlive
  have E2 : innerLoop env e ed o 0 (fuel + 3)
        { s with trace := s.trace ++ [TItem.dispatch e ed s.exitFlag] }
      = innerLoop env e ed o 1 (fuel + 2)
          (invokeListener env o f1 e ed none
            { s with trace := s.trace ++ [TItem.dispatch e ed s.exitFlag] }) :=
    innerLoop_step2 env e ed o 0 (fuel + 2) f1 none
      { s with trace := s.trace ++ [TItem.dispatch e ed s.exitFlag] } hno
      (by simp [lookupOwner, htab]) (by simp [lookupOwner, htab])
  have E3 : invokeListener env o f1 e ed none
        { s with trace := s.trace ++ [TItem.dispatch e ed s.exitFlag] }
      = { setTable { s with trace := s.trace ++ [TItem.dispatch e ed s.exitFlag] } e
            [(o, [(f1, none), (f2, none)])] with
          trace := (s.trace ++ [TItem.dispatch e ed s.exitFlag])
            ++ [TItem.invoke o f1 e ed none false] } :=
    invokeListener_register env o f1 e ed none
      { s with trace := s.trace ++ [TItem.dispatch e ed s.exitFlag] }
      e (Method.mk f2 (some o)) none hp1 [(o, [(f1, none), (f2, none)])] hreg
  have E4 : innerLoop env e ed o 1 (fuel + 2)
        { setTable { s with trace := s.trace ++ [TItem.dispatch e ed s.exitFlag] } e
            [(o, [(f1, none), (f2, none)])] with
          trace := (s.trace ++ [TItem.dispatch e ed s.exitFlag])
            ++ [TItem.invoke o f1 e ed none false] }
      = innerLoop env e ed o 2 (fuel + 1)
          (invokeListener env o f2 e ed none
            { setTable { s with trace := s.trace ++ [TItem.dispatch e ed s.exitFlag] } e
                [(o, [(f1, none), (f2, none)])] with
              trace := (s.trace ++ [TItem.dispatch e ed s.exitFlag])
                ++ [TItem.invoke o f1 e ed none false] }) :=
    innerLoop_step2 env e ed o 1 (fuel + 1) f2 none
      { setTable { s with trace := s.trace ++ [TItem.dispatch e ed s.exitFlag] } e
          [(o, [(f1, none), (f2, none)])] with
        trace := (s.trace ++ [TItem.dispatch e ed s.exitFlag])
          ++ [TItem.invoke o f1 e ed none false] } hno
      (by simp [setTable, lookupOwner]) (by simp [setTable, lookupOwner])
  have E5 : invokeListener env o f2 e ed none
        { setTable { s with trace := s.trace ++ [TItem.dispatch e ed s.exitFlag] } e
            [(o, [(f1, none), (f2, none)])] with
          trace := (s.trace ++ [TItem.dispatch e ed s.exitFlag])
            ++ [TItem.invoke o f1 e ed none false] }
      = { setTable { s with trace := s.trace ++ [TItem.dispatch e ed s.exitFlag] } e
            [(o, [(f1, none), (f2, none)])] with
          trace := ((s.trace ++ [TItem.dispatch e ed s.exitFlag])
              ++ [TItem.invoke o f1 e ed none false])
            ++ [TItem.invoke o f2 e ed none false] } :=
    invokeListener_nil env o f2 e ed none
      { setTable { s with trace := s.trace ++ [TItem.dispatch e ed s.exitFlag] } e
          [(o, [(f1, none), (f2, none)])] with
        trace := (s.trace ++ [TItem.dispatch e ed s.exitFlag])
          ++ [TItem.invoke o f1 e ed none false] } hp2
  have E6 : innerLoop env e ed o 2 (fuel + 1)
        { setTable { s with trace := s.trace ++ [TItem.dispatch e ed s.exitFlag] } e
            [(o, [(f1, none), (f2, none)])] with
          trace := ((s.trace ++ [TItem.dispatch e ed s.exitFlag])
              ++ [TItem.invoke o f1 e ed none false])
            ++ [TItem.invoke o f2 e ed none false] }
      = { setTable { s with trace := s.trace ++ [TItem.dispatch e ed s.exitFlag] } e
            [(o, [(f1, none), (f2, none)])] with
          trace := ((s.trace ++ [TItem.dispatch e ed s.exitFlag])
              ++ [TItem.invoke o f1 e ed none false])
            ++ [TItem.invoke o f2 e ed none false] } :=
    @innerLoop_stop env e ed o 2 fuel
      { setTable { s with trace := s.trace ++ [TItem.dispatch e ed s.exitFlag] } e
          [(o, [(f1, none), (f2, none)])] with
        trace := ((s.trace ++ [TItem.dispatch e ed s.exitFlag])
            ++ [TItem.invoke o f1 e ed none false])
          ++ [TItem.invoke o f2 e ed none false] } hno
      (by simp [setTable, lookupOwner])
  have E7 : outerLoop env e ed (s.tables e).length 1 (fuel + 3)
        { setTable { s with trace := s.trace ++ [TItem.dispatch e ed s.exitFlag] } e
            [(o, [(f1, none), (f2, none)])] with
          trace := ((s.trace ++ [TItem.dispatch e ed s.exitFlag])
              ++ [TItem.invoke o f1 e ed none false])
            ++ [TItem.invoke o f2 e ed none false] }
      = { setTable { s with trace := s.trace ++ [TItem.dispatch e ed s.exitFlag] } e
            [(o, [(f1, none), (f2, none)])] with
          trace := ((s.trace ++ [TItem.dispatch e ed s.exitFlag])
              ++ [TItem.invoke o f1 e ed none false])
            ++ [TItem.invoke o f2 e ed none false] } :=
    @outerLoop_stop env e ed (s.tables e).length 1 (fuel + 2)
      { setTable { s with trace := s.trace ++ [TItem.dispatch e ed s.exitFlag] } e
          [(o, [(f1, none), (f2, none)])] with
        trace := ((s.trace ++ [TItem.dispatch e ed s.exitFlag])
            ++ [TItem.invoke o f1 e ed none false])
          ++ [TItem.invoke o f2 e ed none false] } hno
      (by simp [setTable, htab]) (by simp [setTable])
  have hEval : dispatchEvent env (fuel + 4) e ed s
      = { setTable { s with trace := s.trace ++ [TItem.dispatch e ed s.exitFlag] } e
            [(o, [(f1, none), (f2, none)])] with
          trace := ((s.trace ++ [TItem.dispatch e ed s.exitFlag])
              ++ [TItem.invoke o f1 e ed none false])
            ++ [TItem.invoke o f2 e ed none false] } := by
    rw [E0, E1, E2, E3, E4, E5, E6, E7]
  rw [hEval]
  constructor
  · simp
  · simp [setTable]

/-- C1 counterexample: the claim asserts that a dispatch operates on a
point-in-time snapshot of the listener table, so that a registration made
by a listener during that dispatch has no effect on the set of listeners
invoked by the same dispatch.  At dispatch start, owner 1's recorded
listeners for event 5 are exactly `[(10, none)]`; yet callback 10 registers
callback 20 on event 5 during its invocation and the very same dispatch
then invokes callback 20, refuting the snapshot claim. -/
theorem c1_snapshot_counterexample :
    lookupOwner
      (({ tables := fun e => if e = 5 then [(1, [(10, none)])] else [],
          queue := [], exitFlag := false, trace := [], error := none } : DState).tables 5) 1
      = [(10, none)]
    ∧ (dispatchEvent
        { prog := fun f _ _ _ _ =>
            if f = 10 then [Action.register 5 (Method.mk 20 (some 1)) none] else [],
          live := fun _ => true } 9 5 none
        { tables := fun e => if e = 5 then [(1, [(10, none)])] else [],
          queue := [], exitFlag := false, trace := [], error := none }).trace
      = [TItem.dispatch 5 none false,
         TItem.invoke 1 10 5 none none false,
         TItem.invoke 1 20 5 none none false] := by
  constructor
  · decide
  · decide

/-- Witness for `c1_live_iteration` at the concrete counterexample
environment. -/
theorem c1_live_iteration_witness :
    (dispatchEvent
        { prog := fun f _ _ _ _ =>
            if f = 10 then [Action.register 5 (Method.mk 20 (some 1)) none] else [],
          live := fun _ => true } 4 5 none
        { tables := fun e => if e = 5 then [(1, [(10, none)])] else [],
          queue := [], exitFlag := false, trace := [], error := none }).trace
      = [TItem.dispatch 5 none false,
         TItem.invoke 1 10 5 none none false,
         TItem.invoke 1 20 5 none none false]
    ∧ (dispatchEvent
        { prog := fun f _ _ _ _ =>
            if f = 10 then [Action.register 5 (Method.mk 20 (some 1)) none] else [],
          live := fun _ => true } 4 5 none
        { tables := fun e => if e = 5 then [(1, [(10, none)])] else [],
          queue := [], exitFlag := false, trace := [], error := none }).tables 5
      = [(1, [(10, none), (20, none)])] :=
  c1_live_iteration
    { prog := fun f _ _ _ _ =>
        if f = 10 then [Action.register 5 (Method.mk 20 (some 1)) none] else [],
      live := fun _ => true } 5 1 10 20 none 0
    { tables := fun e => if e = 5 then [(1, [(10, none)])] else [],
      queue := [], exitFlag := false, trace := [], error := none }
    rfl rfl (by decide) (by decide) (by decide)

theorem drain_tail_error (env : Env) (n m : Nat) {s : DState}
    (h : s.error.isSome = true) : drainLoop env n (drainCheck env m s) = s := by
  rw [drainCheck_err env m h, drainLoop_err env n h]

/-- C2: the queue is FIFO.  `internal_queue_event` appends at the tail, a
dispatch only ever appends to the queue (previously queued entries keep
their position in front of newly triggered ones), and a drain starting
with queue `A, B, C, ...` dispatches `A`, then `B`, then `C`, with nothing
but listener invocations (no other dispatch — in particular no event
triggered during `A`) in between. -/
theorem c2_fifo :
    (∀ (s : DState) (e : Nat) (ed : Data),
      (internalQueueEvent s e ed).queue = s.queue ++ [(e, ed)])
    ∧ (∀ (env : Env) (fuel e : Nat) (ed : Data) (s : DState),
        ∃ Δ, (dispatchEvent env fuel e ed s).queue = s.queue ++ Δ)
    ∧ ∀ (env : Env) (fuel : Nat) (s : DState) (a b c : Nat) (da db dc : Data)
        (rest : List (Nat × Data)),
        s.error = none → s.queue = (a, da) :: (b, db) :: (c, dc) :: rest → 3 ≤ fuel →
        (drainLoop env fuel s).error = none →
        ∃ t1 t2 t3,
          (drainLoop env fuel s).trace
            = s.trace ++ TItem.dispatch a da s.exitFlag
                :: (t1 ++ TItem.dispatch b db s.exitFlag
                :: (t2 ++ TItem.dispatch c dc s.exitFlag :: t3))
          ∧ (∀ x ∈ t1, isInvokeItem x = true)
          ∧ (∀ x ∈ t2, isInvokeItem x = true) := by
  refine ⟨fun s e ed => rfl, ?_, ?_⟩
  · intro env fuel e ed s
    obtain ⟨Δt, Δq, h1, h2, h3⟩ := dispatchEvent_mono env fuel e ed s
    exact ⟨Δq, h2⟩
  · intro env fuel s a b c da db dc rest herr hq hfuel hres
    obtain ⟨k, rfl⟩ : ∃ k, fuel = k + 3 := ⟨fuel - 3, by omega⟩
    have hno : s.error.isSome = false := by simp [herr]
    rw [drainLoop_cons env (k + 2) a da ((b, db) :: (c, dc) :: rest) hno hq] at hres ⊢
    set S1 := dispatchEvent env (k + 2 + 1) a da
      { s with queue := (b, db) :: (c, dc) :: rest } with hS1
    cases hD1e : S1.error with
    | some err =>
      rw [drain_tail_error env (k + 2) (k + 2 + 1) (by simp [hD1e])] at hres
      rw [hD1e] at hres
      exact absurd hres (by simp)
    | none =>
      obtain ⟨Δt1, Δq1, hT1a, hI1, hQ1a, hX1a⟩ := dispatchEvent_frame env (k + 2 + 1) a da
        { s with queue := (b, db) :: (c, dc) :: rest } herr
      rw [← hS1] at hT1a hQ1a hX1a
      have hT1 : S1.trace = s.trace ++ TItem.dispatch a da s.exitFlag :: Δt1 := hT1a
      have hQ1 : S1.queue = ((b, db) :: (c, dc) :: rest) ++ Δq1 := hQ1a
      have hX1 : S1.exitFlag = s.exitFlag := hX1a
      have hskip1 : drainCheck env (k + 2 + 1) S1 = S1 :=
        drainCheck_skip env (k + 2 + 1) (by simp [hD1e]) (by rw [hQ1]; rfl)
      rw [hskip1] at hres ⊢
      have hq2 : S1.queue = (b, db) :: ((c, dc) :: rest ++ Δq1) := by
        rw [hQ1]
        rfl
      rw [drainLoop_cons env (k + 1) b db ((c, dc) :: rest ++ Δq1) (by simp [hD1e]) hq2]
        at hres ⊢
      set S2 := dispatchEvent env (k + 1 + 1) b db
        { S1 with queue := (c, dc) :: rest ++ Δq1 } with hS2
      cases hD2e : S2.error with
      | some err =>
        rw [drain_tail_error env (k + 1) (k + 1 + 1) (by simp [hD2e])] at hres
        rw [hD2e] at hres
        exact absurd hres (by simp)
      | none =>
        obtain ⟨Δt2, Δq2, hT2a, hI2, hQ2a, hX2a⟩ := dispatchEvent_frame env (k + 1 + 1) b db
          { S1 with queue := (c, dc) :: rest ++ Δq1 } hD1e
        rw [← hS2] at hT2a hQ2a hX2a
        have hT2 : S2.trace = S1.trace ++ TItem.dispatch b db S1.exitFlag :: Δt2 := hT2a
        have hQ2 : S2.queue = ((c, dc) :: rest ++ Δq1) ++ Δq2 := hQ2a
        have hX2 : S2.exitFlag = S1.exitFlag := hX2a
        have hskip2 : drainCheck env (k + 1 + 1) S2 = S2 :=
          drainCheck_skip env (k + 1 + 1) (by simp [hD2e]) (by rw [hQ2]; rfl)
        rw [hskip2] at hres ⊢
        have hq3 : S2.queue = (c, dc) :: ((rest ++ Δq1) ++ Δq2) := by
          rw [hQ2]
          rfl
        rw [drainLoop_cons env k c dc ((rest ++ Δq1) ++ Δq2) (by simp [hD2e]) hq3]
        set S3 := dispatchEvent env (k + 1) c dc
          { S2 with queue := (rest ++ Δq1) ++ Δq2 } with hS3
        obtain ⟨Δt3, Δq3, hT3a, hI3, hQ3a, hX3a⟩ := dispatchEvent_frame env (k + 1) c dc
          { S2 with queue := (rest ++ Δq1) ++ Δq2 } hD2e
        rw [← hS3] at hT3a
        have hT3 : S3.trace = S2.trace ++ TItem.dispatch c dc S2.exitFlag :: Δt3 := hT3a
        obtain ⟨Δc3, hC3⟩ := drainCheck_mono env (k + 1) S3
        obtain ⟨Δd3, hL3⟩ := drainLoop_mono env k (drainCheck env (k + 1) S3)
        refine ⟨Δt1, Δt2, Δt3 ++ (Δc3 ++ Δd3), ?_, hI1, hI2⟩
        rw [hL3, hC3, hT3, hT2, hT1, hX2, hX1]
        simp

/-- Witness for `c2_fifo`: events 4, 5, 6 queued in that order; the
listener of event 4 triggers event 7 during dispatch, and 5 and 6 are still
dispatched second and third with nothing but invocations in between. -/
theorem c2_fifo_witness :
    (internalQueueEvent
        { tables := fun e => if e = 4 then [(1, [(100, none)])] else [],
          queue := [(4, none), (5, none), (6, some 3)], exitFlag := false,
          trace := [], error := none } 7 none).queue
      = [(4, none), (5, none), (6, some 3)] ++ [(7, none)]
    ∧ (∃ Δ, (dispatchEvent
        { prog := fun f _ _ _ _ => if f = 100 then [Action.trigger 7 none] else [],
          live := fun _ => true } 10 4 none
        { tables := fun e => if e = 4 then [(1, [(100, none)])] else [],
          queue := [(4, none), (5, none), (6, some 3)], exitFlag := false,
          trace := [], error := none }).queue
      = [(4, none), (5, none), (6, some 3)] ++ Δ)
    ∧ ∃ t1 t2 t3,
        (drainLoop
          { prog := fun f _ _ _ _ => if f = 100 then [Action.trigger 7 none] else [],
            live := fun _ => true } 10
          { tables := fun e => if e = 4 then [(1, [(100, none)])] else [],
            queue := [(4, none), (5, none), (6, some 3)], exitFlag := false,
            trace := [], error := none }).trace
          = [] ++ TItem.dispatch 4 none false
              :: (t1 ++ TItem.dispatch 5 none false
              :: (t2 ++ TItem.dispatch 6 (some 3) false :: t3))
        ∧ (∀ x ∈ t1, isInvokeItem x = true)
        ∧ (∀ x ∈ t2, isInvokeItem x = true) :=
  ⟨c2_fifo.1
      { tables := fun e => if e = 4 then [(1, [(100, none)])] else [],
        queue := [(4, none), (5, none), (6, some 3)], exitFlag := false,
        trace := [], error := none } 7 none,
   c2_fifo.2.1
      { prog := fun f _ _ _ _ => if f = 100 then [Action.trigger 7 none] else [],
        live := fun _ => true } 10 4 none
      { tables := fun e => if e = 4 then [(1, [(100, none)])] else [],
        queue := [(4, none), (5, none), (6, some 3)], exitFlag := false,
        trace := [], error := none },
   c2_fifo.2.2
      { prog := fun f _ _ _ _ => if f = 100 then [Action.trigger 7 none] else [],
        live := fun _ => true } 10
      { tables := fun e => if e = 4 then [(1, [(100, none)])] else [],
        queue := [(4, none), (5, none), (6, some 3)], exitFlag := false,
        trace := [], error := none }
      4 5 6 none none (some 3) [] rfl rfl (by decide) (by decide)⟩

/-- Discriminator: a `queue_empty` dispatch item. -/
def isQE : TItem → Bool
  | TItem.dispatch e _ _ => e == queueEmptyId
  | _ => false

/-- No `queue_empty` dispatch occurs in the given trace fragment. -/
def qeFree (l : List TItem) : Prop := ∀ x ∈ l, isQE x = false

/-- After every `exitSet` marker in the fragment, no `queue_empty` dispatch
follows. -/
def splitOk (l : List TItem) : Prop :=
  ∀ l1 l2, l = l1 ++ TItem.exitSet :: l2 → qeFree l2

/-- Relation between a state and a later state of the same run: the trace
only grew; once the exit flag is true it stays true and the new fragment
contains no `queue_empty` dispatch; if the fragment sets the flag, the
flag ends up true; and within the fragment no `queue_empty` dispatch
follows an `exitSet` marker. -/
def TraceOk (s sB : DState) : Prop :=
  ∃ Δ, sB.trace = s.trace ++ Δ ∧
    (s.exitFlag = true → sB.exitFlag = true ∧ qeFree Δ) ∧
    (TItem.exitSet ∈ Δ → sB.exitFlag = true) ∧
    splitOk Δ

/-- An action may only trigger user events (ids ≥ 3): listeners do not
trigger the dispatcher's built-in events themselves. -/
def userTrigger (a : Action) : Prop := ∀ e ed, a = Action.trigger e ed → 3 ≤ e

/-- Environment whose listeners only ever trigger user events. -/
def Benign (env : Env) : Prop :=
  ∀ f o e ed ld, ∀ a ∈ env.prog f o e ed ld, userTrigger a

/-- All queued entries are user events (ids ≥ 3). -/
def QueueOK (q : List (Nat × Data)) : Prop := ∀ p ∈ q, 3 ≤ p.1

theorem qeFree_nil : qeFree [] := fun x hx => absurd hx (List.not_mem_nil x)

theorem qeFree_append {a b : List TItem} (ha : qeFree a) (hb : qeFree b) :
    qeFree (a ++ b) := by
  intro x hx
  rcases List.mem_append.mp hx with hx | hx
  · exact ha x hx
  · exact hb x hx

theorem splitOk_nil : splitOk [] := by
  intro l1 l2 h
  exact absurd h.symm (by simp)

theorem splitOk_of_no_exitSet {l : List TItem} (h : TItem.exitSet ∉ l) : splitOk l := by
  intro l1 l2 heq
  exfalso
  exact h (heq ▸ List.mem_append.mpr (Or.inr (List.mem_cons_self _ _)))

theorem TraceOk_refl (s : DState) : TraceOk s s :=
  ⟨[], by simp, fun h => ⟨h, qeFree_nil⟩, fun h => absurd h (List.not_mem_nil _), splitOk_nil⟩

theorem TraceOk_of_eq {s sB : DState} (h : sB = s) : TraceOk s sB := by
  subst h
  exact TraceOk_refl sB

theorem TraceOk_trans {s1 s2 s3 : DState} (hA : TraceOk s1 s2) (hB : TraceOk s2 s3) :
    TraceOk s1 s3 := by
  obtain ⟨Δa, ha1, ha2, ha3, ha4⟩ := hA
  obtain ⟨Δb, hb1, hb2, hb3, hb4⟩ := hB
  refine ⟨Δa ++ Δb, ?_, ?_, ?_, ?_⟩
  · rw [hb1, ha1, List.append_assoc]
  · intro hex
    obtain ⟨hx2, hqa⟩ := ha2 hex
    obtain ⟨hx3, hqb⟩ := hb2 hx2
    exact ⟨hx3, qeFree_append hqa hqb⟩
  · intro hmem
    rcases List.mem_append.mp hmem with hm | hm
    · exact (hb2 (ha3 hm)).1
    · exact hb3 hm
  · intro l1 l2 heq
    rcases List.append_eq_append_iff.mp heq with ⟨a2, hc, hb⟩ | ⟨c2, hAa, hd⟩
    · exact hb4 a2 l2 hb
    · cases c2 with
      | nil =>
        simp only [List.nil_append] at hd
        exact hb4 [] l2 (by simpa using hd.symm)
      | cons x c2t =>
        have hd2 : TItem.exitSet :: l2 = x :: (c2t ++ Δb) := by simpa using hd
        obtain ⟨hx, hl2⟩ := List.cons_eq_cons.mp hd2
        subst hx
        have hqc : qeFree c2t := ha4 l1 c2t hAa
        have hmem : TItem.exitSet ∈ Δa := by
          rw [hAa]
          exact List.mem_append.mpr (Or.inr (List.mem_cons_self _ _))
        have hqb : qeFree Δb := (hb2 (ha3 hmem)).2
        rw [hl2]
        exact qeFree_append hqc hqb

theorem runActions_queueOK (as : List Action) (hben : ∀ a ∈ as, userTrigger a) :
    ∀ s : DState, QueueOK s.queue → QueueOK (runActions s as).1.queue := by
  induction as with
  | nil =>
    intro s h
    simpa [runActions] using h
  | cons a rest ih =>
    intro s h
    cases a with
    | trigger e ed =>
      simp only [runActions]
      refine ih (fun a ha => hben a (List.mem_cons_of_mem _ ha)) (internalQueueEvent s e ed) ?_
      intro p hp
      rcases List.mem_append.mp hp with hp | hp
      · exact h p hp
      · have h3 : 3 ≤ e := hben (Action.trigger e ed) (List.mem_cons_self _ _) e ed rfl
        rw [List.mem_singleton.mp hp]
        exact h3
    | register e m ld =>
      simp only [runActions]
      cases hreg : registerListener (s.tables e) m ld with
      | error msg => simpa [hreg] using h
      | ok t =>
        simp only [hreg]
        exact ih (fun a ha => hben a (List.mem_cons_of_mem _ ha)) (setTable s e t) h
    | unregMethod e m =>
      simp only [runActions]
      exact ih (fun a ha => hben a (List.mem_cons_of_mem _ ha)) _ h
    | unregObject e o =>
      simp only [runActions]
      exact ih (fun a ha => hben a (List.mem_cons_of_mem _ ha)) _ h
    | raiseExc =>
      simpa [runActions] using h

theorem invokeListener_queueOK (env : Env) (hben : Benign env) (owner f e : Nat)
    (ed ld : Data) (s : DState) (h : QueueOK s.queue) :
    QueueOK (invokeListener env owner f e ed ld s).queue := by
  rw [invokeListener_eq]
  exact runActions_queueOK (env.prog f owner e ed ld) (hben f owner e ed ld) s h

theorem innerLoop_queueOK (env : Env) (hben : Benign env) (e : Nat) (ed : Data)
    (owner : Nat) : ∀ (fuel j : Nat) (s : DState), QueueOK s.queue →
    QueueOK (innerLoop env e ed owner j fuel s).queue := by
  intro fuel
  induction fuel with
  | zero =>
    intro j s h
    cases herr : s.error.isSome with
    | true => rw [innerLoop_err env e ed owner j 0 herr]; exact h
    | false =>
      rw [innerLoop_zero env e ed owner j herr]
      obtain ⟨hf1, hf2, hf3⟩ := setError_frame s Err.fuelOut
      rw [hf2]
      exact h
  | succ fuel ih =>
    intro j s h
    cases herr : s.error.isSome with
    | true => rw [innerLoop_err env e ed owner j (fuel + 1) herr]; exact h
    | false =>
      by_cases hlt : j < (lookupOwner (s.tables e) owner).length
      · rw [innerLoop_step env e ed owner j fuel herr hlt]
        exact ih (j + 1) _ (invokeListener_queueOK env hben owner _ e ed _ s h)
      · rw [innerLoop_stop env e ed owner j fuel herr hlt]
        exact h

theorem outerLoop_queueOK (env : Env) (hben : Benign env) (e : Nat) (ed : Data)
    (n0 : Nat) : ∀ (fuel i : Nat) (s : DState), QueueOK s.queue →
    QueueOK (outerLoop env e ed n0 i fuel s).queue := by
  intro fuel
  induction fuel with
  | zero =>
    intro i s h
    cases herr : s.error.isSome with
    | true => rw [outerLoop_err env e ed n0 i 0 herr]; exact h
    | false =>
      rw [outerLoop_zero env e ed n0 i herr]
      obtain ⟨hf1, hf2, hf3⟩ := setError_frame s Err.fuelOut
      rw [hf2]
      exact h
  | succ fuel ih =>
    intro i s h
    cases herr : s.error.isSome with
    | true => rw [outerLoop_err env e ed n0 i (fuel + 1) herr]; exact h
    | false =>
      by_cases hn : (s.tables e).length = n0
      · by_cases hlt : i < (s.tables e).length
        · cases hlive : env.live ((s.tables e).get ⟨i, hlt⟩).1 with
          | true =>
            rw [outerLoop_live env e ed n0 i fuel herr hn hlt hlive]
            exact ih (i + 1) _ (innerLoop_queueOK env hben e ed _ fuel 0 s h)
          | false =>
            rw [outerLoop_dead env e ed n0 i fuel herr hn hlt hlive]
            exact ih (i + 1) s h
        · rw [outerLoop_stop env e ed n0 i fuel herr hn hlt]
          exact h
      · rw [outerLoop_dict env e ed n0 i fuel herr hn]
        obtain ⟨hf1, hf2, hf3⟩ := setError_frame s Err.dictChanged
        rw [hf2]
        exact h

theorem dispatchEvent_queueOK (env : Env) (hben : Benign env) (fuel e : Nat) (ed : Data)
    (s : DState) (h : QueueOK s.queue) : QueueOK (dispatchEvent env fuel e ed s).queue := by
  cases herr : s.error.isSome with
  | true => rw [dispatchEvent_err env fuel e ed herr]; exact h
  | false =>
    rw [dispatchEvent_eq env fuel e ed herr]
    exact outerLoop_queueOK env hben e ed _ fuel 0 _ h

theorem drainCheck_queueOK (env : Env) (hben : Benign env) (fuel : Nat) (s : DState)
    (h : QueueOK s.queue) : QueueOK (drainCheck env fuel s).queue := by
  cases herr : s.error.isSome with
  | true => rw [drainCheck_err env fuel herr]; exact h
  | false =>
    cases hc : (s.queue.isEmpty && !s.exitFlag) with
    | false => rw [drainCheck_skip env fuel herr hc]; exact h
    | true =>
      have hq2 : QueueOK (dispatchEvent env fuel queueEmptyId none s).queue :=
        dispatchEvent_queueOK env hben fuel queueEmptyId none s h
      cases h2e : (dispatchEvent env fuel queueEmptyId none s).error.isSome with
      | true => rw [drainCheck_run_err env fuel herr hc h2e]; exact hq2
      | false =>
        cases h3q : (dispatchEvent env fuel queueEmptyId none s).queue.isEmpty with
        | true => rw [drainCheck_run_set env fuel herr hc h2e h3q]; exact hq2
        | false => rw [drainCheck_run_keep env fuel herr hc h2e h3q]; exact hq2

theorem isQE_eq_false_of_invoke {x : TItem} (h : isInvokeItem x = true) : isQE x = false := by
  cases x <;> simp_all [isInvokeItem, isQE]

theorem ne_exitSet_of_invoke {x : TItem} (h : isInvokeItem x = true) :
    x ≠ TItem.exitSet := by
  cases x <;> simp_all [isInvokeItem]

theorem dispatchEvent_traceOk (env : Env) (fuel e : Nat) (ed : Data) (s : DState)
    (he2 : e = queueEmptyId → s.exitFlag = false) :
    TraceOk s (dispatchEvent env fuel e ed s) := by
  cases he : s.error with
  | some err => exact TraceOk_of_eq (dispatchEvent_err env fuel e ed (by simp [he]))
  | none =>
    obtain ⟨Δt, Δq, h1, h2, h3, h4⟩ := dispatchEvent_frame env fuel e ed s he
    have hnoset : TItem.exitSet ∉ TItem.dispatch e ed s.exitFlag :: Δt := by
      intro hmem
      rcases List.mem_cons.mp hmem with hm | hm
      · exact TItem.noConfusion hm
      · exact ne_exitSet_of_invoke (h2 _ hm) rfl
    refine ⟨TItem.dispatch e ed s.exitFlag :: Δt, h1, ?_, ?_, splitOk_of_no_exitSet hnoset⟩
    · intro hex
      refine ⟨by rw [h4]; exact hex, ?_⟩
      intro x hx
      rcases List.mem_cons.mp hx with hx | hx
      · subst hx
        have hne : e ≠ queueEmptyId := by
          intro hEq
          have hff := he2 hEq
          rw [hex] at hff
          exact Bool.noConfusion hff
        simp [isQE, hne]
      · exact isQE_eq_false_of_invoke (h2 x hx)
    · intro hmem
      exact absurd hmem hnoset

theorem drainCheck_traceOk (env : Env) (fuel : Nat) (s : DState) :
    TraceOk s (drainCheck env fuel s) := by
  cases herr : s.error.isSome with
  | true => exact TraceOk_of_eq (drainCheck_err env fuel herr)
  | false =>
    cases hc : (s.queue.isEmpty && !s.exitFlag) with
    | false => exact TraceOk_of_eq (drainCheck_skip env fuel herr hc)
    | true =>
      have hexf : s.exitFlag = false := by
        have hc2 := hc
        simp only [Bool.and_eq_true, Bool.not_eq_true'] at hc2
        exact hc2.2
      have hdis : TraceOk s (dispatchEvent env fuel queueEmptyId none s) :=
        dispatchEvent_traceOk env fuel queueEmptyId none s (fun _ => hexf)
      cases h2e : (dispatchEvent env fuel queueEmptyId none s).error.isSome with
      | true =>
        rw [drainCheck_run_err env fuel herr hc h2e]
        exact hdis
      | false =>
        cases h3q : (dispatchEvent env fuel queueEmptyId none s).queue.isEmpty with
        | true =>
          rw [drainCheck_run_set env fuel herr hc h2e h3q]
          refine TraceOk_trans hdis ?_
          refine ⟨[TItem.exitSet], rfl, ?_, ?_, ?_⟩
          · intro _
            refine ⟨rfl, ?_⟩
            intro x hx
            rw [List.mem_singleton.mp hx]
            rfl
          · intro _
            rfl
          · intro l1 l2 heq
            cases l1 with
            | nil =>
              simp only [List.nil_append] at heq
              have h0 : l2 = [] := ((List.cons_eq_cons.mp heq).2).symm
              rw [h0]
              exact qeFree_nil
            | cons y l1t =>
              exfalso
              have hlen := congrArg List.length heq
              simp [List.length_append] at hlen
        | false =>
          rw [drainCheck_run_keep env fuel herr hc h2e h3q]
          exact hdis

theorem drainLoop_ok (env : Env) (hben : Benign env) : ∀ (fuel : Nat) (s : DState),
    QueueOK s.queue →
    TraceOk s (drainLoop env fuel s) ∧ QueueOK (drainLoop env fuel s).queue := by
  intro fuel
  induction fuel with
  | zero =>
    intro s hQ
    cases herr : s.error.isSome with
    | true =>
      rw [drainLoop_err env 0 herr]
      exact ⟨TraceOk_refl s, hQ⟩
    | false =>
      cases hq : s.queue.isEmpty with
      | true =>
        rw [drainLoop_zero_nil env herr hq]
        exact ⟨TraceOk_refl s, hQ⟩
      | false =>
        rw [drainLoop_zero_cons env herr hq]
        obtain ⟨hf1, hf2, hf3⟩ := setError_frame s Err.fuelOut
        refine ⟨⟨[], by rw [hf1]; simp, ?_, ?_, splitOk_nil⟩, ?_⟩
        · intro h
          rw [hf3]
          exact ⟨h, qeFree_nil⟩
        · intro h
          exact absurd h (List.not_mem_nil _)
        · rw [hf2]
          exact hQ
  | succ fuel ih =>
    intro s hQ
    cases herr : s.error.isSome with
    | true =>
      rw [drainLoop_err env (fuel + 1) herr]
      exact ⟨TraceOk_refl s, hQ⟩
    | false =>
      cases hqe : s.queue with
      | nil =>
        rw [drainLoop_nil env fuel herr hqe]
        exact ⟨TraceOk_refl s, hQ⟩
      | cons p rest =>
        obtain ⟨e, ed⟩ := p
        rw [drainLoop_cons env fuel e ed rest herr hqe]
        have he3 : 3 ≤ e := hQ (e, ed) (by rw [hqe]; exact List.mem_cons_self _ _)
        have hQrest : QueueOK (({ s with queue := rest } : DState).queue) := by
          intro p hp
          exact hQ p (by rw [hqe]; exact List.mem_cons_of_mem _ hp)
        have hT0 : TraceOk s ({ s with queue := rest } : DState) :=
          ⟨[], by simp, fun h => ⟨h, qeFree_nil⟩,
            fun h => absurd h (List.not_mem_nil _), splitOk_nil⟩
        have hTd : TraceOk { s with queue := rest }
            (dispatchEvent env (fuel + 1) e ed { s with queue := rest }) :=
          dispatchEvent_traceOk env (fuel + 1) e ed _
            (fun h2 => absurd he3 (by rw [h2]; decide))
        have hQd : QueueOK (dispatchEvent env (fuel + 1) e ed
            { s with queue := rest }).queue :=
          dispatchEvent_queueOK env hben (fuel + 1) e ed _ hQrest
        have hTc : TraceOk (dispatchEvent env (fuel + 1) e ed { s with queue := rest })
            (drainCheck env (fuel + 1)
              (dispatchEvent env (fuel + 1) e ed { s with queue := rest })) :=
          drainCheck_traceOk env (fuel + 1) _
        have hQc : QueueOK (drainCheck env (fuel + 1)
            (dispatchEvent env (fuel + 1) e ed { s with queue := rest })).queue :=
          drainCheck_queueOK env hben (fuel + 1) _ hQd
        obtain ⟨hTl, hQl⟩ := ih (drainCheck env (fuel + 1)
          (dispatchEvent env (fuel + 1) e ed { s with queue := rest })) hQc
        exact ⟨TraceOk_trans hT0 (TraceOk_trans hTd (TraceOk_trans hTc hTl)), hQl⟩

theorem loopRun_traceOk (env : Env) (hben : Benign env) (fuel : Nat) (s : DState)
    (hQ : QueueOK s.queue) : TraceOk s (loopRun env fuel s) := by
  have hT0 : TraceOk s (dispatchEvent env fuel loopStartId none s) :=
    dispatchEvent_traceOk env fuel loopStartId none s (fun h => absurd h (by decide))
  have hQ0 : QueueOK (dispatchEvent env fuel loopStartId none s).queue :=
    dispatchEvent_queueOK env hben fuel loopStartId none s hQ
  have hbr : TraceOk (dispatchEvent env fuel loopStartId none s)
      (if !(dispatchEvent env fuel loopStartId none s).exitFlag
          && (dispatchEvent env fuel loopStartId none s).queue.isEmpty then
        dispatchEvent env fuel queueEmptyId none (dispatchEvent env fuel loopStartId none s)
      else dispatchEvent env fuel loopStartId none s)
      ∧ QueueOK (if !(dispatchEvent env fuel loopStartId none s).exitFlag
          && (dispatchEvent env fuel loopStartId none s).queue.isEmpty then
        dispatchEvent env fuel queueEmptyId none (dispatchEvent env fuel loopStartId none s)
      else dispatchEvent env fuel loopStartId none s).queue := by
    cases hc : (!(dispatchEvent env fuel loopStartId none s).exitFlag
        && (dispatchEvent env fuel loopStartId none s).queue.isEmpty) with
    | false =>
      simp only [Bool.false_eq_true, if_false]
      exact ⟨TraceOk_refl _, hQ0⟩
    | true =>
      have hexf : (dispatchEvent env fuel loopStartId none s).exitFlag = false := by
        have hc2 := hc
        simp only [Bool.and_eq_true, Bool.not_eq_true'] at hc2
        exact hc2.1
      rw [if_pos rfl]
      exact ⟨dispatchEvent_traceOk env fuel queueEmptyId none _ (fun _ => hexf),
        dispatchEvent_queueOK env hben fuel queueEmptyId none _ hQ0⟩
  obtain ⟨hT1, hQ1⟩ := hbr
  obtain ⟨hT2, hQ2⟩ := drainLoop_ok env hben fuel _ hQ1
  have hT3 := dispatchEvent_traceOk env fuel loopEndId none
    (drainLoop env fuel
      (if !(dispatchEvent env fuel loopStartId none s).exitFlag
          && (dispatchEvent env fuel loopStartId none s).queue.isEmpty then
        dispatchEvent env fuel queueEmptyId none (dispatchEvent env fuel loopStartId none s)
      else dispatchEvent env fuel loopStartId none s))
    (fun h => absurd h (by decide))
  exact TraceOk_trans hT0 (TraceOk_trans hT1 (TraceOk_trans hT2 hT3))

/-- C3: the queue-empty / exit protocol of `loop()`.  First conjunct: when a
`queue_empty` dispatch performed by the in-drain check completes with the
queue still empty, the drain body sets `exit` to true.  Second conjunct:
when `exit` is already true on entry, the whole `loop()` run dispatches
`queue_empty` not even once.  Third conjunct: in any `loop()` trace, no
`queue_empty` dispatch ever follows the `exitSet` marker of the
`self.exit = True` assignment — once `exit` is true, no further
`queue_empty` dispatch occurs for the remainder of the run.  (Listeners are
assumed to trigger only user events, ids ≥ 3, and the initial queue to hold
only user events: triggering a built-in event object directly is outside
the interface contract.) -/
theorem c3_queue_empty_exit :
    (∀ (env : Env) (fuel : Nat) (s : DState),
      s.error = none → s.queue = [] → s.exitFlag = false →
      (dispatchEvent env fuel queueEmptyId none s).error = none →
      (dispatchEvent env fuel queueEmptyId none s).queue = [] →
      (drainCheck env fuel s).exitFlag = true)
    ∧ (∀ (env : Env) (fuel : Nat) (s : DState),
        Benign env → QueueOK s.queue → s.exitFlag = true →
        ∃ Δ, (loopRun env fuel s).trace = s.trace ++ Δ ∧ qeFree Δ)
    ∧ (∀ (env : Env) (fuel : Nat) (s : DState),
        Benign env → QueueOK s.queue → s.trace = [] →
        splitOk ((loopRun env fuel s).trace)) := by
  refine ⟨?_, ?_, ?_⟩
  · intro env fuel s herr hq hex h2e h3q
    have herrb : s.error.isSome = false := by simp [herr]
    have hc : (s.queue.isEmpty && !s.exitFlag) = true := by
      rw [hq, hex]
      rfl
    have h2eb : (dispatchEvent env fuel queueEmptyId none s).error.isSome = false := by
      simp [h2e]
    have h3qb : (dispatchEvent env fuel queueEmptyId none s).queue.isEmpty = true := by
      rw [h3q]
      rfl
    rw [drainCheck_run_set env fuel herrb hc h2eb h3qb]
  · intro env fuel s hben hQ hex
    obtain ⟨Δ, h1, h2, h3, h4⟩ := loopRun_traceOk env hben fuel s hQ
    exact ⟨Δ, h1, (h2 hex).2⟩
  · intro env fuel s hben hQ htr
    obtain ⟨Δ, h1, h2, h3, h4⟩ := loopRun_traceOk env hben fuel s hQ
    rw [h1, htr, List.nil_append]
    exact h4

/-- Witness for `c3_queue_empty_exit` with no listeners: the in-drain check
sets `exit` after an uneventful `queue_empty` dispatch; a run entered with
`exit = true` performs no `queue_empty` dispatch; and no run lets a
`queue_empty` dispatch follow the `exitSet` marker. -/
theorem c3_queue_empty_exit_witness :
    (drainCheck { prog := fun _ _ _ _ _ => [], live := fun _ => true } 1
        { tables := fun _ => [], queue := [], exitFlag := false, trace := [],
          error := none }).exitFlag = true
    ∧ (∃ Δ, (loopRun { prog := fun _ _ _ _ _ => [], live := fun _ => true } 1
        { tables := fun _ => [], queue := [], exitFlag := true, trace := [],
          error := none }).trace = [] ++ Δ ∧ qeFree Δ)
    ∧ splitOk ((loopRun { prog := fun _ _ _ _ _ => [], live := fun _ => true } 1
        { tables := fun _ => [], queue := [], exitFlag := false, trace := [],
          error := none }).trace) :=
  ⟨c3_queue_empty_exit.1 { prog := fun _ _ _ _ _ => [], live := fun _ => true } 1
      { tables := fun _ => [], queue := [], exitFlag := false, trace := [], error := none }
      rfl rfl rfl (by decide) (by decide),
   c3_queue_empty_exit.2.1 { prog := fun _ _ _ _ _ => [], live := fun _ => true } 1
      { tables := fun _ => [], queue := [], exitFlag := true, trace := [], error := none }
      (fun f o e ed ld a ha => absurd ha (List.not_mem_nil a))
      (fun p hp => absurd hp (List.not_mem_nil p)) rfl,
   c3_queue_empty_exit.2.2 { prog := fun _ _ _ _ _ => [], live := fun _ => true } 1
      { tables := fun _ => [], queue := [], exitFlag := false, trace := [], error := none }
      (fun f o e ed ld a ha => absurd ha (List.not_mem_nil a))
      (fun p hp => absurd hp (List.not_mem_nil p)) rfl⟩

theorem dispatchEvent_empty (env : Env) (fuel e : Nat) (ed : Data) (s : DState)
    (herr : s.error = none) (htab : s.tables e = []) :
    dispatchEvent env (fuel + 1) e ed s
      = { s with trace := s.trace ++ [TItem.dispatch e ed s.exitFlag] } := by
  have hno : s.error.isSome = false := by simp [herr]
  rw [dispatchEvent_eq env (fuel + 1) e ed hno]
  exact @outerLoop_stop env e ed (s.tables e).length 0 fuel
    { s with trace := s.trace ++ [TItem.dispatch e ed s.exitFlag] } hno rfl (by simp [htab])

theorem loopRun_empty (env : Env) (fuel : Nat) (s : DState)
    (htab : ∀ e2, s.tables e2 = []) (hq : s.queue = []) (hex : s.exitFlag = false)
    (herr : s.error = none) :
    loopRun env (fuel + 1) s
      = { s with trace := ((s.trace ++ [TItem.dispatch loopStartId none s.exitFlag])
          ++ [TItem.dispatch queueEmptyId none s.exitFlag])
          ++ [TItem.dispatch loopEndId none s.exitFlag] } := by
  have hno : s.error.isSome = false := by simp [herr]
  have h1 : dispatchEvent env (fuel + 1) loopStartId none s
      = { s with trace := s.trace ++ [TItem.dispatch loopStartId none s.exitFlag] } :=
    dispatchEvent_empty env fuel loopStartId none s herr (htab loopStartId)
  have h2 : dispatchEvent env (fuel + 1) queueEmptyId none
      { s with trace := s.trace ++ [TItem.dispatch loopStartId none s.exitFlag] }
      = { s with trace := (s.trace ++ [TItem.dispatch loopStartId none s.exitFlag])
          ++ [TItem.dispatch queueEmptyId none s.exitFlag] } :=
    dispatchEvent_empty env fuel queueEmptyId none
      { s with trace := s.trace ++ [TItem.dispatch loopStartId none s.exitFlag] }
      herr (htab queueEmptyId)
  have h3 : drainLoop env (fuel + 1)
      { s with trace := (s.trace ++ [TItem.dispatch loopStartId none s.exitFlag])
          ++ [TItem.dispatch queueEmptyId none s.exitFlag] }
      = { s with trace := (s.trace ++ [TItem.dispatch loopStartId none s.exitFlag])
          ++ [TItem.dispatch queueEmptyId none s.exitFlag] } :=
    @drainLoop_nil env fuel
      { s with trace := (s.trace ++ [TItem.dispatch loopStartId none s.exitFlag])
          ++ [TItem.dispatch queueEmptyId none s.exitFlag] } hno hq
  have h4 : dispatchEvent env (fuel + 1) loopEndId none
      { s with trace := (s.trace ++ [TItem.dispatch loopStartId none s.exitFlag])
          ++ [TItem.dispatch queueEmptyId none s.exitFlag] }
      = { s with trace := ((s.trace ++ [TItem.dispatch loopStartId none s.exitFlag])
          ++ [TItem.dispatch queueEmptyId none s.exitFlag])
          ++ [TItem.dispatch loopEndId none s.exitFlag] } :=
    dispatchEvent_empty env fuel loopEndId none
      { s with trace := (s.trace ++ [TItem.dispatch loopStartId none s.exitFlag])
          ++ [TItem.dispatch queueEmptyId none s.exitFlag] }
      herr (htab loopEndId)
  have hcond : (!({ s with trace := s.trace
        ++ [TItem.dispatch loopStartId none s.exitFlag] } : DState).exitFlag
      && ({ s with trace := s.trace
        ++ [TItem.dispatch loopStartId none s.exitFlag] } : DState).queue.isEmpty) = true := by
    show (!s.exitFlag && s.queue.isEmpty) = true
    rw [hex, hq]
    rfl
  rw [loopRun_eq, h1, if_pos hcond, h2, h3, h4]

/-- Discriminator: a `loop_end` dispatch item. -/
def isLE : TItem → Bool
  | TItem.dispatch e _ _ => e == loopEndId
  | _ => false

/-- No `loop_end` dispatch occurs in the given trace fragment. -/
def leFree (l : List TItem) : Prop := ∀ x ∈ l, isLE x = false

theorem leFree_nil : leFree [] := fun x hx => absurd hx (List.not_mem_nil x)

theorem leFree_append {a b : List TItem} (ha : leFree a) (hb : leFree b) :
    leFree (a ++ b) := by
  intro x hx
  rcases List.mem_append.mp hx with hx | hx
  · exact ha x hx
  · exact hb x hx

theorem isLE_eq_false_of_invoke {x : TItem} (h : isInvokeItem x = true) : isLE x = false := by
  cases x <;> simp_all [isInvokeItem, isLE]

theorem dispatchEvent_leFree (env : Env) (fuel e : Nat) (ed : Data) (s : DState)
    (hne : e ≠ loopEndId) :
    ∃ Δ, (dispatchEvent env fuel e ed s).trace = s.trace ++ Δ ∧ leFree Δ := by
  cases he : s.error with
  | some err =>
    rw [dispatchEvent_err env fuel e ed (by simp [he])]
    exact ⟨[], by simp, leFree_nil⟩
  | none =>
    obtain ⟨Δt, Δq, h1, h2, h3, h4⟩ := dispatchEvent_frame env fuel e ed s he
    refine ⟨TItem.dispatch e ed s.exitFlag :: Δt, h1, ?_⟩
    intro x hx
    rcases List.mem_cons.mp hx with hx | hx
    · subst hx
      simp [isLE, hne]
    · exact isLE_eq_false_of_invoke (h2 x hx)

theorem drainCheck_leFree (env : Env) (fuel : Nat) (s : DState) :
    ∃ Δ, (drainCheck env fuel s).trace = s.trace ++ Δ ∧ leFree Δ := by
  cases herr : s.error.isSome with
  | true =>
    rw [drainCheck_err env fuel herr]
    exact ⟨[], by simp, leFree_nil⟩
  | false =>
    cases hc : (s.queue.isEmpty && !s.exitFlag) with
    | false =>
      rw [drainCheck_skip env fuel herr hc]
      exact ⟨[], by simp, leFree_nil⟩
    | true =>
      obtain ⟨Δ, h1, h2⟩ := dispatchEvent_leFree env fuel queueEmptyId none s (by decide)
      cases h2e : (dispatchEvent env fuel queueEmptyId none s).error.isSome with
      | true =>
        rw [drainCheck_run_err env fuel herr hc h2e]
        exact ⟨Δ, h1, h2⟩
      | false =>
        cases h3q : (dispatchEvent env fuel queueEmptyId none s).queue.isEmpty with
        | true =>
          rw [drainCheck_run_set env fuel herr hc h2e h3q]
          refine ⟨Δ ++ [TItem.exitSet], ?_, ?_⟩
          · show (dispatchEvent env fuel queueEmptyId none s).trace
              ++ [TItem.exitSet] = s.trace ++ (Δ ++ [TItem.exitSet])
            rw [h1, List.append_assoc]
          · refine leFree_append h2 ?_
            intro x hx
            rw [List.mem_singleton.mp hx]
            rfl
        | false =>
          rw [drainCheck_run_keep env fuel herr hc h2e h3q]
          exact ⟨Δ, h1, h2⟩

theorem drainLoop_leFree (env : Env) (hben : Benign env) : ∀ (fuel : Nat) (s : DState),
    QueueOK s.queue →
    ∃ Δ, (drainLoop env fuel s).trace = s.trace ++ Δ ∧ leFree Δ := by
  intro fuel
  induction fuel with
  | zero =>
    intro s hQ
    cases herr : s.error.isSome with
    | true =>
      rw [drainLoop_err env 0 herr]
      exact ⟨[], by simp, leFree_nil⟩
    | false =>
      cases hq : s.queue.isEmpty with
      | true =>
        rw [drainLoop_zero_nil env herr hq]
        exact ⟨[], by simp, leFree_nil⟩
      | false =>
        rw [drainLoop_zero_cons env herr hq]
        obtain ⟨hf1, hf2, hf3⟩ := setError_frame s Err.fuelOut
        exact ⟨[], by rw [hf1]; simp, leFree_nil⟩
  | succ fuel ih =>
    intro s hQ
    cases herr : s.error.isSome with
    | true =>
      rw [drainLoop_err env (fuel + 1) herr]
      exact ⟨[], by simp, leFree_nil⟩
    | false =>
      cases hqe : s.queue with
      | nil =>
        rw [drainLoop_nil env fuel herr hqe]
        exact ⟨[], by simp, leFree_nil⟩
      | cons p rest =>
        obtain ⟨e, ed⟩ := p
        rw [drainLoop_cons env fuel e ed rest herr hqe]
        have he3 : 3 ≤ e := hQ (e, ed) (by rw [hqe]; exact List.mem_cons_self _ _)
        have hQrest : QueueOK (({ s with queue := rest } : DState).queue) := by
          intro p hp
          exact hQ p (by rw [hqe]; exact List.mem_cons_of_mem _ hp)
        obtain ⟨Δ1, ha1, ha2⟩ := dispatchEvent_leFree env (fuel + 1) e ed
          { s with queue := rest } (by show e ≠ 1; omega)
        obtain ⟨Δ2, hb1, hb2⟩ := drainCheck_leFree env (fuel + 1)
          (dispatchEvent env (fuel + 1) e ed { s with queue := rest })
        have hQd : QueueOK (drainCheck env (fuel + 1)
            (dispatchEvent env (fuel + 1) e ed { s with queue := rest })).queue :=
          drainCheck_queueOK env hben (fuel + 1) _
            (dispatchEvent_queueOK env hben (fuel + 1) e ed _ hQrest)
        obtain ⟨Δ3, hc1, hc2⟩ := ih (drainCheck env (fuel + 1)
          (dispatchEvent env (fuel + 1) e ed { s with queue := rest })) hQd
        refine ⟨Δ1 ++ (Δ2 ++ Δ3), ?_, leFree_append ha2 (leFree_append hb2 hc2)⟩
        rw [hc1, hb1, ha1]
        simp

theorem loopRun_leFree_split (env : Env) (hben : Benign env) (fuel : Nat) (s : DState)
    (hQ : QueueOK s.queue) (hres : (loopRun env fuel s).error = none) :
    ∃ Δpre Δt ex, (loopRun env fuel s).trace
        = s.trace ++ Δpre ++ TItem.dispatch loopEndId none ex :: Δt
      ∧ leFree Δpre ∧ ∀ x ∈ Δt, isInvokeItem x = true := by
  by_cases hc : (!(dispatchEvent env fuel loopStartId none s).exitFlag
      && (dispatchEvent env fuel loopStartId none s).queue.isEmpty) = true
  · obtain ⟨Δ1, ha1, ha2⟩ := dispatchEvent_leFree env fuel loopStartId none s (by decide)
    obtain ⟨Δ2, hb1, hb2⟩ := dispatchEvent_leFree env fuel queueEmptyId none
      (dispatchEvent env fuel loopStartId none s) (by decide)
    have hQ1 : QueueOK (dispatchEvent env fuel loopStartId none s).queue :=
      dispatchEvent_queueOK env hben fuel loopStartId none s hQ
    have hQ2 : QueueOK (dispatchEvent env fuel queueEmptyId none
        (dispatchEvent env fuel loopStartId none s)).queue :=
      dispatchEvent_queueOK env hben fuel queueEmptyId none _ hQ1
    obtain ⟨Δ3, hc1, hc2⟩ := drainLoop_leFree env hben fuel
      (dispatchEvent env fuel queueEmptyId none (dispatchEvent env fuel loopStartId none s)) hQ2
    have hrun : loopRun env fuel s
        = dispatchEvent env fuel loopEndId none (drainLoop env fuel
            (dispatchEvent env fuel queueEmptyId none
              (dispatchEvent env fuel loopStartId none s))) := by
      rw [loopRun_eq, if_pos hc]
    have herr3 : (drainLoop env fuel (dispatchEvent env fuel queueEmptyId none
        (dispatchEvent env fuel loopStartId none s))).error = none := by
      cases h3 : (drainLoop env fuel (dispatchEvent env fuel queueEmptyId none
          (dispatchEvent env fuel loopStartId none s))).error with
      | none => rfl
      | some err =>
        exfalso
        have hstop := @dispatchEvent_err env fuel loopEndId none
          (drainLoop env fuel (dispatchEvent env fuel queueEmptyId none
            (dispatchEvent env fuel loopStartId none s))) (by rw [h3]; rfl)
        rw [hrun, hstop, h3] at hres
        exact Option.noConfusion hres
    obtain ⟨Δt, Δq, hf1, hf2, hf3, hf4⟩ := dispatchEvent_frame env fuel loopEndId none
      (drainLoop env fuel (dispatchEvent env fuel queueEmptyId none
        (dispatchEvent env fuel loopStartId none s))) herr3
    refine ⟨Δ1 ++ (Δ2 ++ Δ3), Δt,
      (drainLoop env fuel (dispatchEvent env fuel queueEmptyId none
        (dispatchEvent env fuel loopStartId none s))).exitFlag, ?_, ?_, hf2⟩
    · rw [hrun, hf1, hc1, hb1, ha1]
      simp
    · exact leFree_append ha2 (leFree_append hb2 hc2)
  · obtain ⟨Δ1, ha1, ha2⟩ := dispatchEvent_leFree env fuel loopStartId none s (by decide)
    have hQ1 : QueueOK (dispatchEvent env fuel loopStartId none s).queue :=
      dispatchEvent_queueOK env hben fuel loopStartId none s hQ
    obtain ⟨Δ3, hc1, hc2⟩ := drainLoop_leFree env hben fuel
      (dispatchEvent env fuel loopStartId none s) hQ1
    have hrun : loopRun env fuel s
        = dispatchEvent env fuel loopEndId none (drainLoop env fuel
            (dispatchEvent env fuel loopStartId none s)) := by
      rw [loopRun_eq, if_neg hc]
    have herr3 : (drainLoop env fuel (dispatchEvent env fuel loopStartId none s)).error
        = none := by
      cases h3 : (drainLoop env fuel (dispatchEvent env fuel loopStartId none s)).error with
      | none => rfl
      | some err =>
        exfalso
        have hstop := @dispatchEvent_err env fuel loopEndId none
          (drainLoop env fuel (dispatchEvent env fuel loopStartId none s)) (by rw [h3]; rfl)
        rw [hrun, hstop, h3] at hres
        exact Option.noConfusion hres
    obtain ⟨Δt, Δq, hf1, hf2, hf3, hf4⟩ := dispatchEvent_frame env fuel loopEndId none
      (drainLoop env fuel (dispatchEvent env fuel loopStartId none s)) herr3
    refine ⟨Δ1 ++ Δ3, Δt,
      (drainLoop env fuel (dispatchEvent env fuel loopStartId none s)).exitFlag,
      ?_, leFree_append ha2 hc2, hf2⟩
    rw [hrun, hf1, hc1, ha1]
    simp

/-- C5: lifecycle of `loop()`. (1) Whatever the environment, the first trace item of a
run is the `loop_start` dispatch. (2) Under a benign environment (listener programs
trigger only user events, as the spec's collaboration contract prescribes) and a
well-formed starting queue, a run that completes without error dispatches `loop_end`
exactly once, after the drain loop has stopped: the trace splits as a `loop_end`-free
prefix, the single `loop_end` dispatch, and a suffix of that dispatch's own listener
invocations. (3) With an initially empty queue, empty listener tables and exit unset,
the dispatch order is exactly `loop_start`, `queue_empty`, `loop_end`. -/
theorem c5_loop_lifecycle :
    (∀ (env : Env) (fuel : Nat) (s : DState), s.error = none →
      ∃ t, (loopRun env fuel s).trace
        = s.trace ++ TItem.dispatch loopStartId none s.exitFlag :: t)
    ∧ (∀ (env : Env) (fuel : Nat) (s : DState), Benign env → QueueOK s.queue →
      s.trace = [] → (loopRun env fuel s).error = none →
      ∃ t1 t2 ex, (loopRun env fuel s).trace
          = t1 ++ TItem.dispatch loopEndId none ex :: t2
        ∧ leFree t1 ∧ ∀ x ∈ t2, isInvokeItem x = true)
    ∧ (∀ (env : Env) (fuel : Nat) (s : DState),
      (∀ e2, s.tables e2 = []) → s.queue = [] → s.exitFlag = false →
      s.error = none → s.trace = [] →
      (loopRun env (fuel + 1) s).trace
        = [TItem.dispatch loopStartId none false, TItem.dispatch queueEmptyId none false,
           TItem.dispatch loopEndId none false]) := by
  refine ⟨?_, ?_, ?_⟩
  · intro env fuel s herr
    have key : ∀ (x : DState), ∃ Δ,
        (dispatchEvent env fuel loopEndId none (drainLoop env fuel x)).trace
          = x.trace ++ Δ := by
      intro x
      obtain ⟨Δd, hd⟩ := drainLoop_mono env fuel x
      obtain ⟨Δe, Δq2, he, hq2, hx2⟩ := dispatchEvent_mono env fuel loopEndId none
        (drainLoop env fuel x)
      exact ⟨Δd ++ Δe, by rw [he, hd, List.append_assoc]⟩
    obtain ⟨Δt, Δq, h1, h2, h3, h4⟩ := dispatchEvent_frame env fuel loopStartId none s herr
    by_cases hc : (!(dispatchEvent env fuel loopStartId none s).exitFlag
        && (dispatchEvent env fuel loopStartId none s).queue.isEmpty) = true
    · obtain ⟨Δ2, Δq2, hq1, hq2, hq3⟩ := dispatchEvent_mono env fuel queueEmptyId none
        (dispatchEvent env fuel loopStartId none s)
      obtain ⟨Δ3, h5⟩ := key (dispatchEvent env fuel queueEmptyId none
        (dispatchEvent env fuel loopStartId none s))
      refine ⟨Δt ++ (Δ2 ++ Δ3), ?_⟩
      rw [loopRun_eq, if_pos hc, h5, hq1, h1]
      simp
    · obtain ⟨Δ3, h5⟩ := key (dispatchEvent env fuel loopStartId none s)
      refine ⟨Δt ++ Δ3, ?_⟩
      rw [loopRun_eq, if_neg hc, h5, h1]
      simp
  · intro env fuel s hben hQ htr hres
    obtain ⟨Δpre, Δt, ex, h1, h2, h3⟩ := loopRun_leFree_split env hben fuel s hQ hres
    refine ⟨Δpre, Δt, ex, ?_, h2, h3⟩
    rw [h1, htr]
    simp
  · intro env fuel s htab hq hex herr htr
    rw [loopRun_empty env fuel s htab hq hex herr]
    show ((s.trace ++ [TItem.dispatch loopStartId none s.exitFlag])
        ++ [TItem.dispatch queueEmptyId none s.exitFlag])
        ++ [TItem.dispatch loopEndId none s.exitFlag]
      = [TItem.dispatch loopStartId none false, TItem.dispatch queueEmptyId none false,
         TItem.dispatch loopEndId none false]
    rw [htr, hex]
    rfl

theorem c5_loop_lifecycle_witness :
    (∃ t, (loopRun { prog := fun _ _ _ _ _ => [], live := fun _ => true } 3
        { tables := fun _ => [], queue := [], exitFlag := false, trace := [],
          error := none }).trace
      = [] ++ TItem.dispatch loopStartId none false :: t)
    ∧ (∃ t1 t2 ex, (loopRun { prog := fun _ _ _ _ _ => [], live := fun _ => true } 3
        { tables := fun _ => [], queue := [], exitFlag := false, trace := [],
          error := none }).trace
        = t1 ++ TItem.dispatch loopEndId none ex :: t2
      ∧ leFree t1 ∧ ∀ x ∈ t2, isInvokeItem x = true)
    ∧ (loopRun { prog := fun _ _ _ _ _ => [], live := fun _ => true } 3
        { tables := fun _ => [], queue := [], exitFlag := false, trace := [],
          error := none }).trace
      = [TItem.dispatch loopStartId none false, TItem.dispatch queueEmptyId none false,
         TItem.dispatch loopEndId none false] :=
  ⟨c5_loop_lifecycle.1 { prog := fun _ _ _ _ _ => [], live := fun _ => true } 3
      { tables := fun _ => [], queue := [], exitFlag := false, trace := [], error := none }
      rfl,
   c5_loop_lifecycle.2.1 { prog := fun _ _ _ _ _ => [], live := fun _ => true } 3
      { tables := fun _ => [], queue := [], exitFlag := false, trace := [], error := none }
      (fun f o e ed ld a ha => absurd ha (List.not_mem_nil a))
      (fun p hp => absurd hp (List.not_mem_nil p)) rfl (by decide),
   c5_loop_lifecycle.2.2 { prog := fun _ _ _ _ _ => [], live := fun _ => true } 2
      { tables := fun _ => [], queue := [], exitFlag := false, trace := [], error := none }
      (fun _ => rfl) rfl rfl rfl rfl⟩

/-- C10: asymmetry of the exit flag. (1) Dispatching an event never changes the exit
flag; in particular the pre-drain `queue_empty` dispatch in `loop()` leaves it
untouched — only the in-drain check after a `queue_empty` dispatch (the drain loop's
own emptiness test) ever sets exit to true. (2) Consequently, starting `loop()` with
exit false, an empty queue and empty listener tables (so the pre-drain `queue_empty`
dispatch enqueues nothing and the drain loop never runs a `queue_empty` dispatch),
the run dispatches `loop_start`, `queue_empty`, `loop_end` and returns with the exit
flag still false, the queue empty and no error. -/
theorem c10_exit_asymmetry :
    (∀ (env : Env) (fuel e : Nat) (ed : Data) (s : DState),
      (dispatchEvent env fuel e ed s).exitFlag = s.exitFlag)
    ∧ (∀ (env : Env) (fuel : Nat) (s : DState),
      (∀ e2, s.tables e2 = []) → s.queue = [] → s.exitFlag = false →
      s.error = none → s.trace = [] →
      (loopRun env (fuel + 1) s).exitFlag = false
      ∧ (loopRun env (fuel + 1) s).trace
        = [TItem.dispatch loopStartId none false, TItem.dispatch queueEmptyId none false,
           TItem.dispatch loopEndId none false]
      ∧ (loopRun env (fuel + 1) s).queue = []
      ∧ (loopRun env (fuel + 1) s).error = none) := by
  constructor
  · intro env fuel e ed s
    obtain ⟨Δt, Δq, h1, h2, h3⟩ := dispatchEvent_mono env fuel e ed s
    exact h3
  · intro env fuel s htab hq hex herr htr
    rw [loopRun_empty env fuel s htab hq hex herr]
    refine ⟨hex, ?_, hq, herr⟩
    show ((s.trace ++ [TItem.dispatch loopStartId none s.exitFlag])
        ++ [TItem.dispatch queueEmptyId none s.exitFlag])
        ++ [TItem.dispatch loopEndId none s.exitFlag]
      = [TItem.dispatch loopStartId none false, TItem.dispatch queueEmptyId none false,
         TItem.dispatch loopEndId none false]
    rw [htr, hex]
    rfl

theorem c10_exit_asymmetry_witness :
    (loopRun { prog := fun _ _ _ _ _ => [], live := fun _ => true } 3
        { tables := fun _ => [], queue := [], exitFlag := false, trace := [],
          error := none }).exitFlag = false
    ∧ (loopRun { prog := fun _ _ _ _ _ => [], live := fun _ => true } 3
        { tables := fun _ => [], queue := [], exitFlag := false, trace := [],
          error := none }).trace
      = [TItem.dispatch loopStartId none false, TItem.dispatch queueEmptyId none false,
         TItem.dispatch loopEndId none false]
    ∧ (loopRun { prog := fun _ _ _ _ _ => [], live := fun _ => true } 3
        { tables := fun _ => [], queue := [], exitFlag := false, trace := [],
          error := none }).queue = []
    ∧ (loopRun { prog := fun _ _ _ _ _ => [], live := fun _ => true } 3
        { tables := fun _ => [], queue := [], exitFlag := false, trace := [],
          error := none }).error = none :=
  c10_exit_asymmetry.2 { prog := fun _ _ _ _ _ => [], live := fun _ => true } 2
    { tables := fun _ => [], queue := [], exitFlag := false, trace := [], error := none }
    (fun _ => rfl) rfl rfl rfl rfl

end PyEvent
